import Mathlib

/-!
# ESP32 relay controller: relay bank, persisted state, broker session, connectivity supervisor

A shallow embedding of `include/config.h`, `src/relay_control.cpp` and `src/main.cpp`.

Conventions of the embedding:

* The global variables of `main.cpp`, the function statics of `reconnectMQTT` and the
  `RelayControl` object are the fields of one record, `Sys`.
* Calls into the platform (GPIO, WiFi, mDNS, MQTT client, key/value store, HTTP responses,
  restart) are recorded, in program order, in `Sys.log`.  `Serial` output and `delay` are not
  recorded.
* What the platform reports back is either an argument of the embedded function (the value
  read from `millis()`, the outcome of `mqttClient.connect`, the number of access-point
  clients) or a platform field of `Sys` (`staConnected`, `mqttConnected`).
* `unsigned long` is 32 bits wide on the target: time stamps are naturals below `2 ^ 32`,
  subtraction wraps around.  The arguments that stand for clock readings are times in
  milliseconds since boot, unbounded; `millis` reduces them modulo `2 ^ 32`.
* `int` values are integers; no arithmetic of the embedded code can overflow them.
* A function that can read `RELAY_NAMES` out of bounds returns an `Option`; `none` stands for
  that read.
* `Sys.publishDiscoveryCalls` is instrumentation: it counts the entries into
  `publishDiscovery` and is read by no embedded function.
* An Arduino `String` made from a C string (a topic, a stored value, a field of a request
  or of the portal) is a text, and `==` on such values is equality of texts; the C side
  sees the UTF-8 bytes of a text (`utf8`).
* The payload of a broker message is a list of bytes, any of which may be NUL, and so is the
  Arduino `String` that `mqttCallback` builds from it byte by byte; its comparison with a
  literal is that of C strings (`cstrEquals`).  A `char` buffer of `main.cpp` is the list
  of the bytes of the C string it holds, those before the terminating NUL.
* `setup`, a pass of `loop`, a handler and a platform event each run to completion before
  the next one starts.
-/

namespace Esp32Relay

/-! ## `include/config.h` -/

/-- The device name, `DEVICE_NAME`. -/
def DEVICE_NAME : String := "ESP32-Relay"

/-- The SSID of the fallback access point, `AP_NAME`. -/
def AP_NAME : String := "ESP32-Relay-Setup"

/-- The passphrase of the fallback access point, `AP_PASSWORD`. -/
def AP_PASSWORD : String := "12345678"

/-- The number of relay channels, `NUM_RELAYS`. -/
abbrev NUM_RELAYS : Nat := 16

/-- The GPIO pin of each channel, `RELAY_PINS`. -/
def RELAY_PINS : Fin NUM_RELAYS → Nat :=
  ![13, 12, 14, 27, 26, 25, 33, 32, 2, 4, 16, 17, 18, 19, 21, 22]

/-- The display name of each channel, `RELAY_NAMES`.  Reading it at an index that is not
below `NUM_RELAYS` is undefined in the source and has no value here. -/
def RELAY_NAMES : List String :=
  ["Relay 1", "Relay 2", "Relay 3", "Relay 4", "Relay 5", "Relay 6", "Relay 7", "Relay 8",
   "Relay 9", "Relay 10", "Relay 11", "Relay 12", "Relay 13", "Relay 14", "Relay 15",
   "Relay 16"]

/-- The prefix of the state, command and availability topics, `MQTT_TOPIC_PREFIX`. -/
def MQTT_TOPIC_PREFIX : String := "homeassistant/switch/"

/-- The prefix of the discovery topics, `MQTT_DISCOVERY_PREFIX`. -/
def MQTT_DISCOVERY_PREFIX : String := "homeassistant"

/-- The mDNS host name, `MDNS_HOSTNAME`. -/
def MDNS_HOSTNAME : String := "esp32-relay"

/-! ## Platform calls -/

/-- The radio modes the program selects with `WiFi.mode`. -/
inductive WiFiMode where
  | WIFI_STA
  | WIFI_AP_STA
  deriving DecidableEq, Repr

/-- A call into the platform, as recorded in `Sys.log`. -/
inductive Effect where
  /-- The call `pinMode(pin, OUTPUT)`. -/
  | pinModeOutput (pin : Nat)
  /-- The call `digitalWrite(pin, level)`; `true` is `HIGH`. -/
  | digitalWrite (pin : Nat) (level : Bool)
  /-- The call `mqttClient.connect(clientId, [user, password,] willTopic, 0, true, "offline")`;
  `auth` is `none` for the overload without credentials. -/
  | mqttConnect (clientId : String) (auth : Option (List Nat × List Nat)) (willTopic : String)
      (willQos : Nat) (willRetain : Bool) (willMessage : String)
  /-- The call `mqttClient.publish(topic, payload, retained)`. -/
  | mqttPublish (topic : String) (payload : String) (retained : Bool)
  /-- The call `mqttClient.subscribe(topic)`. -/
  | mqttSubscribe (topic : String)
  /-- The call `WiFi.begin()`. -/
  | wifiBegin
  /-- The call `WiFi.mode(m)`. -/
  | wifiMode (m : WiFiMode)
  /-- The call `WiFi.softAP(ssid, passphrase)`. -/
  | softAP (ssid : String) (passphrase : String)
  /-- The call `MDNS.begin(MDNS_HOSTNAME)` with the service registration. -/
  | mdnsBegin
  /-- The sequence `MDNS.end(); MDNS.begin(MDNS_HOSTNAME)` with the service registration. -/
  | mdnsRestart
  /-- The call `preferences.putBool(key, value)`. -/
  | putBool (key : String) (value : Bool)
  /-- The call `preferences.putInt(key, value)`. -/
  | putInt (key : String) (value : Int)
  /-- The call `preferences.putString(key, value)`. -/
  | putString (key : String) (value : String)
  /-- The call `request->requestAuthentication()`. -/
  | requestAuthentication
  /-- The call `request->send(code, contentType, body)`. -/
  | httpSend (code : Nat) (contentType : String) (body : String)
  /-- The call `ESP.restart()`. -/
  | restart
  deriving DecidableEq, Repr

/-! ## `src/relay_control.cpp` -/

/-- The class `RelayControl`: the array `relayStates`. -/
structure RelayControl where
  /-- The member `bool relayStates[NUM_RELAYS]`. -/
  relayStates : Fin NUM_RELAYS → Bool

namespace RelayControl

/-- The constructor `RelayControl::RelayControl()`: every entry is `false`. -/
def new : RelayControl := ⟨fun _ => false⟩

/-- The method `RelayControl::setState(relayIndex, state)`: the updated object and the output
writes it issued. -/
def setState (rc : RelayControl) (relayIndex : Int) (state : Bool) :
    RelayControl × List Effect :=
  if h : 0 ≤ relayIndex ∧ relayIndex < (NUM_RELAYS : Int) then
    let i : Fin NUM_RELAYS := ⟨relayIndex.toNat, by omega⟩
    (⟨Function.update rc.relayStates i state⟩, [Effect.digitalWrite (RELAY_PINS i) state])
  else
    (rc, [])

/-- The method `RelayControl::getState(relayIndex)`. -/
def getState (rc : RelayControl) (relayIndex : Int) : Bool :=
  if h : 0 ≤ relayIndex ∧ relayIndex < (NUM_RELAYS : Int) then
    rc.relayStates ⟨relayIndex.toNat, by omega⟩
  else
    false

/-- The method `RelayControl::init()`: every line is claimed as an output and driven low,
every entry is `false`. -/
def init (rc : RelayControl) : RelayControl × List Effect :=
  (List.finRange NUM_RELAYS).foldl
    (fun (acc : RelayControl × List Effect) i =>
      (⟨Function.update acc.1.relayStates i false⟩,
        acc.2 ++ [Effect.pinModeOutput (RELAY_PINS i), Effect.digitalWrite (RELAY_PINS i) false]))
    (rc, [])

/-- The method `RelayControl::toggleRelay(relayIndex)`. -/
def toggleRelay (rc : RelayControl) (relayIndex : Int) : RelayControl × List Effect :=
  if h : 0 ≤ relayIndex ∧ relayIndex < (NUM_RELAYS : Int) then
    rc.setState relayIndex (!rc.relayStates ⟨relayIndex.toNat, by omega⟩)
  else
    (rc, [])

/-- The body of the loops of `allOn` and `allOff` for channel `i`: `setState(i, state)`. -/
def setAll_step (state : Bool) (acc : RelayControl × List Effect) (i : Nat) :
    RelayControl × List Effect :=
  ((acc.1.setState i state).1, acc.2 ++ (acc.1.setState i state).2)

/-- The method `RelayControl::allOn()`. -/
def allOn (rc : RelayControl) : RelayControl × List Effect :=
  (List.range NUM_RELAYS).foldl (setAll_step true) (rc, [])

/-- The method `RelayControl::allOff()`. -/
def allOff (rc : RelayControl) : RelayControl × List Effect :=
  (List.range NUM_RELAYS).foldl (setAll_step false) (rc, [])

end RelayControl

/-- A call of one of the state-changing methods of `RelayControl`. -/
inductive RelayOp where
  | setState (relayIndex : Int) (state : Bool)
  | toggleRelay (relayIndex : Int)
  | allOn
  | allOff

/-- The method call `op` on the relay bank `rc`: the updated object and the output writes
it issued. -/
def RelayControl.call (rc : RelayControl) : RelayOp → RelayControl × List Effect
  | RelayOp.setState relayIndex state => rc.setState relayIndex state
  | RelayOp.toggleRelay relayIndex => rc.toggleRelay relayIndex
  | RelayOp.allOn => rc.allOn
  | RelayOp.allOff => rc.allOff

/-- One method call on a relay bank paired with the platform calls made so far. -/
def relayRun_step (acc : RelayControl × List Effect) (op : RelayOp) :
    RelayControl × List Effect :=
  ((acc.1.call op).1, acc.2 ++ (acc.1.call op).2)

/-- A sequence of method calls, oldest first, on a relay bank paired with the platform calls
made so far. -/
def relayRun (acc : RelayControl × List Effect) (ops : List RelayOp) :
    RelayControl × List Effect :=
  ops.foldl relayRun_step acc

/-- What one platform call does to the level last written to `pin`. -/
def pinLevel_step (pin : Nat) (level : Option Bool) : Effect → Option Bool
  | Effect.digitalWrite q written => if q = pin then some written else level
  | _ => level

/-- The level most recently written to `pin` by `digitalWrite` in a log, `true` for `HIGH`;
`none` when the log has no write to `pin`. -/
def pinLevel (log : List Effect) (pin : Nat) : Option Bool :=
  log.foldl (pinLevel_step pin) none

/-- The level last written to the line of every channel is the state of the channel, for a
relay bank paired with the platform calls made so far. -/
def LinesFollow (acc : RelayControl × List Effect) : Prop :=
  ∀ i : Fin NUM_RELAYS, pinLevel acc.2 (RELAY_PINS i) = some (acc.1.relayStates i)

/-! ## Platform services used by `src/main.cpp` -/

/-- The modulus of `unsigned long` arithmetic on the target, `2 ^ 32`. -/
def UL_MOD : Nat := 4294967296

/-- The value `millis()` returns at `t` milliseconds after boot. -/
def millis (t : Nat) : Nat := t % UL_MOD

/-- The difference `a - b` of two `unsigned long` values. -/
def usub (a b : Nat) : Nat := (a % UL_MOD + UL_MOD - b % UL_MOD) % UL_MOD

/-- The UTF-8 bytes of the character with code `c`. -/
def utf8Char (c : Nat) : List Nat :=
  if c < 128 then [c]
  else if c < 2048 then [192 + c / 64, 128 + c % 64]
  else if c < 65536 then [224 + c / 4096, 128 + c / 64 % 64, 128 + c % 64]
  else [240 + c / 262144, 128 + c / 4096 % 64, 128 + c / 64 % 64, 128 + c % 64]

/-- The bytes of a text as the C side sees them: its UTF-8 encoding. -/
def utf8 (text : String) : List Nat :=
  (text.toList.map fun c => utf8Char c.toNat).flatten

/-- The C string that starts a sequence of bytes: the bytes before the first NUL. -/
def cString (bytes : List Nat) : List Nat := bytes.takeWhile (· ≠ 0)

/-- The comparison `message == literal` of an Arduino `String` holding `bytes` with a string
literal, `String::equals(const char*)`: a `strcmp`, which reads both sides up to their first
NUL byte. -/
def cstrEquals (bytes : List Nat) (literal : String) : Bool :=
  cString bytes == cString (utf8 literal)

/-- The C string left in the buffer by `String::toCharArray(buf, bufsize)`, for a positive
`bufsize` as at every call: at most `bufsize - 1` bytes of the text are copied, up to its
first NUL, and a NUL is put behind them. -/
def toCharArray (text : String) (bufsize : Nat) : List Nat :=
  cString ((utf8 text).take (bufsize - 1))

/-- A value held by the key/value store of the `Preferences` library. -/
inductive PrefValue where
  | bool (b : Bool)
  | int (n : Int)
  | str (text : String)
  deriving DecidableEq, Repr

/-- The object `Preferences preferences`, opened on the namespace `"relay-states"` by every
user: what each key holds.  Opening and closing the namespace and failing writes are not
part of the model. -/
structure Preferences where
  /-- The value stored under each key, if any. -/
  entries : String → Option PrefValue

namespace Preferences

/-- The method `putBool(key, value)`. -/
def putBool (p : Preferences) (key : String) (value : Bool) : Preferences :=
  ⟨fun k => if k = key then some (PrefValue.bool value) else p.entries k⟩

/-- The method `putInt(key, value)`. -/
def putInt (p : Preferences) (key : String) (value : Int) : Preferences :=
  ⟨fun k => if k = key then some (PrefValue.int value) else p.entries k⟩

/-- The method `putString(key, value)`. -/
def putString (p : Preferences) (key : String) (value : String) : Preferences :=
  ⟨fun k => if k = key then some (PrefValue.str value) else p.entries k⟩

/-- The method `getBool(key, defaultValue)`: the default when the key is absent or holds a
value of another type. -/
def getBool (p : Preferences) (key : String) (defaultValue : Bool) : Bool :=
  match p.entries key with
  | some (PrefValue.bool b) => b
  | _ => defaultValue

/-- The method `getInt(key, defaultValue)`. -/
def getInt (p : Preferences) (key : String) (defaultValue : Int) : Int :=
  match p.entries key with
  | some (PrefValue.int n) => n
  | _ => defaultValue

/-- The method `getString(key, defaultValue)`. -/
def getString (p : Preferences) (key : String) (defaultValue : String) : String :=
  match p.entries key with
  | some (PrefValue.str text) => text
  | _ => defaultValue

end Preferences

/-! ## `src/main.cpp`: state -/

/-- The state of the program and of the platform around it. -/
structure Sys where
  /-- The global `RelayControl relayControl`. -/
  relayControl : RelayControl
  /-- The global `Preferences preferences`. -/
  preferences : Preferences
  /-- The global `char mqtt_server[40]`: the bytes of the C string it holds. -/
  mqtt_server : List Nat
  /-- The global `char mqtt_port[6]`: the bytes of the C string it holds. -/
  mqtt_port : List Nat
  /-- The global `char mqtt_user[40]`: the bytes of the C string it holds. -/
  mqtt_user : List Nat
  /-- The global `char mqtt_password[40]`: the bytes of the C string it holds. -/
  mqtt_password : List Nat
  /-- The global `int activeRelayCount`. -/
  activeRelayCount : Int
  /-- The global `unsigned long lastWiFiCheck`. -/
  lastWiFiCheck : Nat
  /-- The global `unsigned long lastReconnectAttempt`. -/
  lastReconnectAttempt : Nat
  /-- The global `bool apModeActive`. -/
  apModeActive : Bool
  /-- The global `bool wifiConnected`. -/
  wifiConnected : Bool
  /-- The global `bool wifiReconnecting`. -/
  wifiReconnecting : Bool
  /-- The global `unsigned long reconnectStartTime`. -/
  reconnectStartTime : Nat
  /-- The static `unsigned long lastAttempt` of `reconnectMQTT`. -/
  lastAttempt : Nat
  /-- The static `bool discoveryPublished` of `reconnectMQTT`. -/
  discoveryPublished : Bool
  /-- Platform: whether `WiFi.status()` is `WL_CONNECTED`. -/
  staConnected : Bool
  /-- Platform: what `mqttClient.connected()` returns. -/
  mqttConnected : Bool
  /-- Platform: the value of `ESP.getEfuseMac()`. -/
  efuseMac : Nat
  /-- Instrumentation: how many times `publishDiscovery` has been entered since boot. -/
  publishDiscoveryCalls : Nat
  /-- The platform calls made so far, oldest first. -/
  log : List Effect

/-- The state with `effects` appended to the log. -/
def Sys.emit (s : Sys) (effects : List Effect) : Sys :=
  { s with log := s.log ++ effects }

/-- The state right after a reset, before `setup` runs: the initialisers of the globals and
statics of `main.cpp`, over the store `prefs` left by earlier boots. -/
def powerOn (prefs : Preferences) (mac : Nat) : Sys where
  relayControl := RelayControl.new
  preferences := prefs
  mqtt_server := utf8 "192.168.68.100"
  mqtt_port := utf8 "1883"
  mqtt_user := utf8 "solacemqtt"
  mqtt_password := utf8 "solacepass"
  activeRelayCount := 16
  lastWiFiCheck := 0
  lastReconnectAttempt := 0
  apModeActive := false
  wifiConnected := false
  wifiReconnecting := false
  reconnectStartTime := 0
  lastAttempt := 0
  discoveryPublished := false
  staConnected := false
  mqttConnected := false
  efuseMac := mac
  publishDiscoveryCalls := 0
  log := []

/-- The constant `WIFI_CHECK_INTERVAL`. -/
def WIFI_CHECK_INTERVAL : Nat := 30000

/-- The constant `RECONNECT_INTERVAL`. -/
def RECONNECT_INTERVAL : Nat := 60000

/-- The constant `RECONNECT_TIMEOUT`. -/
def RECONNECT_TIMEOUT : Nat := 30000

/-- The call `relayControl.setState(relayIndex, state)` on the global relay bank. -/
def relayControl_setState (s : Sys) (relayIndex : Int) (state : Bool) : Sys :=
  { s with
    relayControl := (s.relayControl.setState relayIndex state).1
    log := s.log ++ (s.relayControl.setState relayIndex state).2 }

/-- The call `relayControl.init()` on the global relay bank. -/
def relayControl_init (s : Sys) : Sys :=
  { s with
    relayControl := s.relayControl.init.1
    log := s.log ++ s.relayControl.init.2 }

/-! ## `src/main.cpp`: topics and payloads -/

/-- The availability topic, `MQTT_TOPIC_PREFIX + MDNS_HOSTNAME + "/availability"`. -/
def availTopic : String := MQTT_TOPIC_PREFIX ++ MDNS_HOSTNAME ++ "/availability"

/-- The command topic of channel `i`, ending in `"/relay" + String(i + 1) + "/set"`. -/
def commandTopic (i : Int) : String :=
  MQTT_TOPIC_PREFIX ++ MDNS_HOSTNAME ++ "/relay" ++ toString (i + 1) ++ "/set"

/-- The state topic of channel `i`, ending in `"/relay" + String(i + 1) + "/state"`. -/
def stateTopic (i : Int) : String :=
  MQTT_TOPIC_PREFIX ++ MDNS_HOSTNAME ++ "/relay" ++ toString (i + 1) ++ "/state"

/-- The discovery topic of channel `i`. -/
def configTopic (i : Int) : String :=
  MQTT_DISCOVERY_PREFIX ++ "/switch/" ++ MDNS_HOSTNAME ++ "_relay" ++ toString (i + 1)
    ++ "/config"

/-- The store key of channel `i`, `"relay" + String(i)`. -/
def relayKey (i : Int) : String := "relay" ++ toString i

/-- The text of a state: `state ? "ON" : "OFF"`. -/
def onOff (state : Bool) : String := if state then "ON" else "OFF"

/-- The serialised discovery document `publishDiscovery` builds for channel `i` with display
name `name`. -/
def discoveryPayload (i : Int) (name : String) : String :=
  "\x7b\"name\":\"" ++ name
    ++ "\",\"unique_id\":\"" ++ (MDNS_HOSTNAME ++ "_relay" ++ toString (i + 1))
    ++ "\",\"state_topic\":\"" ++ stateTopic i
    ++ "\",\"command_topic\":\"" ++ commandTopic i
    ++ "\",\"availability_topic\":\"" ++ availTopic
    ++ "\",\"payload_on\":\"ON\",\"payload_off\":\"OFF\",\"state_on\":\"ON\",\"state_off\":\"OFF\""
    ++ ",\"optimistic\":false,\"icon\":\"mdi:electric-switch\""
    ++ ",\"device\":\x7b\"identifiers\":[\"" ++ MDNS_HOSTNAME
    ++ "\"],\"name\":\"" ++ DEVICE_NAME
    ++ "\",\"manufacturer\":\"ESP32\",\"model\":\"16-Channel Relay Controller\""
    ++ ",\"sw_version\":\"1.0.0\"\x7d\x7d"

/-- The discovery message of channel `i`, when `RELAY_NAMES[i]` exists. -/
def discoveryMessage (i : Nat) : Option Effect :=
  RELAY_NAMES[i]?.map fun name =>
    Effect.mqttPublish (configTopic i) (discoveryPayload i name) true

/-- The state message of channel `i` for the relay bank `rc`. -/
def stateMessage (rc : RelayControl) (i : Int) : Effect :=
  Effect.mqttPublish (stateTopic i) (onOff (rc.getState i)) true

/-! ## `src/main.cpp`: persisted state -/

/-- The body of the loop of `saveRelayStates` for channel `i`: a `putBool` of its state
under `relayKey i`. -/
def saveRelayStates_step (acc : Sys) (i : Nat) : Sys :=
  { acc with
    preferences := acc.preferences.putBool (relayKey i) (acc.relayControl.getState i)
    log := acc.log ++ [Effect.putBool (relayKey i) (acc.relayControl.getState i)] }

/-- The function `saveRelayStates`: one `putBool` per channel. -/
def saveRelayStates (s : Sys) : Sys :=
  (List.range NUM_RELAYS).foldl saveRelayStates_step s

/-- The first part of `restoreRelayStates`: the active count, and the broker settings when
a server is stored, are read back from the store. -/
def restoreSettings (s : Sys) : Sys :=
  let s1 : Sys := { s with activeRelayCount := s.preferences.getInt "active_count" 16 }
  let saved_server := s1.preferences.getString "mqtt_server" ""
  if saved_server.length > 0 then
    { s1 with
      mqtt_server := toCharArray saved_server 40
      mqtt_port := toCharArray (s1.preferences.getString "mqtt_port" "1883") 6
      mqtt_user := toCharArray (s1.preferences.getString "mqtt_user" "") 40
      mqtt_password := toCharArray (s1.preferences.getString "mqtt_pass" "") 40 }
  else s1

/-- The body of the loop of `restoreRelayStates` for channel `i`: the channel is set to the
stored value, `false` when there is none. -/
def restoreRelayStates_step (acc : Sys) (i : Nat) : Sys :=
  relayControl_setState acc i (acc.preferences.getBool (relayKey i) false)

/-- The function `restoreRelayStates`: the settings, then the state of every channel, are
read back from the store. -/
def restoreRelayStates (s : Sys) : Sys :=
  (List.range NUM_RELAYS).foldl restoreRelayStates_step (restoreSettings s)

/-! ## `src/main.cpp`: broker session -/

/-- The function `publishState`: nothing when the client is not connected, otherwise one
retained message on the state topic. -/
def publishState (s : Sys) (relayIndex : Int) : Sys :=
  if !s.mqttConnected then s
  else s.emit [stateMessage s.relayControl relayIndex]

/-- The body of the loop of `publishDiscovery` for channel `i`: one retained discovery
message, or `none` when `RELAY_NAMES[i]` is out of bounds. -/
def publishDiscovery_step (acc : Sys) (i : Nat) : Option Sys :=
  (discoveryMessage i).map fun m => acc.emit [m]

/-- The function `publishDiscovery`: nothing when the client is not connected, otherwise one
retained discovery message for each `i < activeRelayCount`.  The result is `none` when the
loop reads `RELAY_NAMES` out of bounds. -/
def publishDiscovery (s : Sys) : Option Sys :=
  let s1 : Sys := { s with publishDiscoveryCalls := s.publishDiscoveryCalls + 1 }
  if !s1.mqttConnected then some s1
  else (List.range s1.activeRelayCount.toNat).foldlM publishDiscovery_step s1

/-- What one call of `reconnectMQTT` reads from the platform. -/
structure ConnectAttempt where
  /-- The time of the `millis()` read compared with `lastAttempt`. -/
  guardTime : Nat
  /-- The time of the `millis()` read stored into `lastAttempt`. -/
  stampTime : Nat
  /-- The result of `mqttClient.connect`. -/
  connected : Bool

/-- The client identifier, `String(DEVICE_NAME) + "-" + String(ESP.getEfuseMac(), HEX)`. -/
def clientId (s : Sys) : String :=
  DEVICE_NAME ++ "-" ++ String.mk (Nat.toDigits 16 s.efuseMac)

/-- The `mqttClient.connect` call of `reconnectMQTT`: with credentials when `mqtt_user` is
not empty. -/
def connectCall (s : Sys) : Effect :=
  Effect.mqttConnect (clientId s)
    (if s.mqtt_user.length > 0 then some (s.mqtt_user, s.mqtt_password) else none)
    availTopic 0 true "offline"

/-- The body of the subscription loop of `reconnectMQTT` for channel `i`. -/
def subscribe_step (acc : Sys) (i : Nat) : Sys :=
  acc.emit [Effect.mqttSubscribe (commandTopic i)]

/-- The body of the initial-state loop of `reconnectMQTT` for channel `i`. -/
def publishState_step (acc : Sys) (i : Nat) : Sys :=
  publishState acc i

/-- The function `reconnectMQTT`. -/
def reconnectMQTT (s : Sys) (c : ConnectAttempt) : Option Sys :=
  if usub (millis c.guardTime) s.lastAttempt < 5000 then some s
  else
    let s1 : Sys := { s with lastAttempt := millis c.stampTime }
    if s1.mqtt_server.length = 0 then some s1
    else
      let s2 : Sys := { s1 with mqttConnected := c.connected, log := s1.log ++ [connectCall s1] }
      if c.connected then
        let s3 := s2.emit [Effect.mqttPublish availTopic "online" true]
        let s4 := (List.range NUM_RELAYS).foldl subscribe_step s3
        if !s4.discoveryPublished then
          (publishDiscovery s4).map fun s5 =>
            (List.range NUM_RELAYS).foldl publishState_step
              { s5 with discoveryPublished := true }
        else some s4
      else some s2

/-- The function `mqttCallback`; `topic` is the text of the C string `topic` and `payload`
holds the `length` bytes of the message, which the function appends one by one to the
Arduino `String message`.  The first channel whose command topic equals `topic` is set to
`message == "ON"`, its state is published and the table is saved. -/
def mqttCallback (s : Sys) (topic : String) (payload : List Nat) : Sys :=
  match (List.range NUM_RELAYS).find? (fun (i : Nat) => topic == commandTopic i) with
  | some i =>
    saveRelayStates (publishState (relayControl_setState s i (cstrEquals payload "ON")) i)
  | none => s

/-- The call `mqttClient.loop()`: when the client is connected and a message is pending,
the callback runs on it. -/
def mqttClient_loop (s : Sys) (inbound : Option (String × List Nat)) : Sys :=
  if s.mqttConnected then
    match inbound with
    | some (topic, payload) => mqttCallback s topic payload
    | none => s
  else s

/-! ## `src/main.cpp`: connectivity supervisor -/

/-- The handler `onWiFiConnect`. -/
def onWiFiConnect (s : Sys) : Sys :=
  let s1 : Sys := { s with wifiConnected := true, wifiReconnecting := false }
  let s2 : Sys :=
    if s1.apModeActive then
      { s1 with apModeActive := false, log := s1.log ++ [Effect.wifiMode WiFiMode.WIFI_STA] }
    else s1
  s2.emit [Effect.mdnsRestart]

/-- The handler `onWiFiDisconnect`. -/
def onWiFiDisconnect (s : Sys) : Sys :=
  { s with wifiConnected := false }

/-- Platform event `ARDUINO_EVENT_WIFI_STA_GOT_IP`: the station is connected and the registered
handler runs. -/
def staGotIP (s : Sys) : Sys :=
  onWiFiConnect { s with staConnected := true }

/-- Platform event `ARDUINO_EVENT_WIFI_STA_DISCONNECTED`: the station is no longer connected and
the registered handler runs. -/
def staDisconnected (s : Sys) : Sys :=
  onWiFiDisconnect { s with staConnected := false }

/-- The function `startAPMode`; `now` is the time of its `millis()` read. -/
def startAPMode (s : Sys) (now : Nat) : Sys :=
  { s with
    apModeActive := true
    lastReconnectAttempt := millis now
    log := s.log ++ [Effect.wifiMode WiFiMode.WIFI_AP_STA, Effect.softAP AP_NAME AP_PASSWORD,
      Effect.mdnsRestart] }

/-- What one call of `checkWiFiConnection` reads from the platform. -/
structure Poll where
  /-- The time of the `millis()` read at entry. -/
  now : Nat
  /-- The time of the `millis()` read inside `startAPMode`, when it is called. -/
  apNow : Nat
  /-- The result of `WiFi.softAPgetStationNum()`. -/
  clients : Int

/-- The function `checkWiFiConnection`. -/
def checkWiFiConnection (s : Sys) (p : Poll) : Sys :=
  let currentMillis := millis p.now
  if usub currentMillis s.lastWiFiCheck < WIFI_CHECK_INTERVAL then s
  else
    let s1 : Sys := { s with lastWiFiCheck := currentMillis }
    if s1.staConnected then s1
    else if s1.wifiReconnecting then
      if usub currentMillis s1.reconnectStartTime > RECONNECT_TIMEOUT then
        startAPMode { s1 with wifiReconnecting := false } p.apNow
      else s1
    else if s1.apModeActive then
      if p.clients > 0 then { s1 with lastReconnectAttempt := currentMillis }
      else if usub currentMillis s1.lastReconnectAttempt < RECONNECT_INTERVAL then s1
      else
        { s1 with
          lastReconnectAttempt := currentMillis
          wifiReconnecting := true
          reconnectStartTime := currentMillis
          log := s1.log ++ [Effect.wifiMode WiFiMode.WIFI_AP_STA, Effect.wifiBegin] }
    else
      { s1 with
        wifiReconnecting := true
        reconnectStartTime := currentMillis
        log := s1.log ++ [Effect.wifiBegin] }

/-! ## `src/main.cpp`: HTTP handlers -/

/-- The body of the success response of `POST /api/relay`. -/
def relayResponse (relayId : Int) (state : Bool) : String :=
  "\x7b\"success\":true,\"relay\":" ++ toString relayId ++ ",\"state\":"
    ++ (if state then "true" else "false") ++ "\x7d"

/-- The body handler of `POST /api/relay`; `body` is `none` when the request body is not
JSON, otherwise the values read from `doc["relay"]` and `doc["state"]`. -/
def handleApiRelay (s : Sys) (body : Option (Int × Bool)) : Sys :=
  match body with
  | none => s.emit [Effect.httpSend 400 "application/json" "\x7b\"error\":\"Invalid JSON\"\x7d"]
  | some (relayId, state) =>
    if 1 ≤ relayId ∧ relayId ≤ (NUM_RELAYS : Int) then
      (saveRelayStates
        (publishState (relayControl_setState s (relayId - 1) state) (relayId - 1))).emit
        [Effect.httpSend 200 "application/json" (relayResponse relayId state)]
    else
      s.emit [Effect.httpSend 400 "application/json" "\x7b\"error\":\"Invalid relay ID\"\x7d"]

/-- The body handler of `POST /api/admin/config`; `authenticated` is the result of
`request->authenticate`, `body` is `none` when the request body is not JSON, otherwise the
value read from `doc["active_relays"]`. -/
def handleAdminConfig (s : Sys) (authenticated : Bool) (body : Option Int) : Sys :=
  if !authenticated then s.emit [Effect.requestAuthentication]
  else
    match body with
    | none =>
      s.emit [Effect.httpSend 400 "application/json" "\x7b\"error\":\"Invalid JSON\"\x7d"]
    | some newRelayCount =>
      if newRelayCount ≠ 8 ∧ newRelayCount ≠ 12 ∧ newRelayCount ≠ 16 then
        s.emit [Effect.httpSend 400 "application/json"
          "\x7b\"error\":\"Invalid relay count. Must be 8, 12, or 16\"\x7d"]
      else
        { s with
          preferences := s.preferences.putInt "active_count" newRelayCount
          activeRelayCount := newRelayCount
          log := s.log ++ [Effect.putInt "active_count" newRelayCount,
            Effect.httpSend 200 "application/json" "\x7b\"success\":true\x7d",
            Effect.restart] }

/-- The text the admin page shows in place of the broker password. -/
def PASSWORD_PLACEHOLDER : String := "••••••••"

/-- What the body handler of `POST /api/admin/mqtt` reads from the request body. -/
structure MqttSettings where
  /-- The value of `doc["mqtt_server"]`. -/
  mqtt_server : String
  /-- The value of `doc["mqtt_port"]`. -/
  mqtt_port : Int
  /-- The value of `doc["mqtt_user"]`. -/
  mqtt_user : String
  /-- The value of `doc["mqtt_password"]`. -/
  mqtt_password : String

/-- The body handler of `POST /api/admin/mqtt`; `authenticated` is the result of
`request->authenticate`, `body` is `none` when the request body is not JSON.  The password
is stored and assigned only when it is not the placeholder. -/
def handleAdminMqtt (s : Sys) (authenticated : Bool) (body : Option MqttSettings) : Sys :=
  if !authenticated then s.emit [Effect.requestAuthentication]
  else
    match body with
    | none =>
      s.emit [Effect.httpSend 400 "application/json" "\x7b\"error\":\"Invalid JSON\"\x7d"]
    | some m =>
      if m.mqtt_server.length = 0 ∨ m.mqtt_port < 1 ∨ m.mqtt_port > 65535 then
        s.emit [Effect.httpSend 400 "application/json"
          "\x7b\"error\":\"Invalid MQTT settings\"\x7d"]
      else
        let p1 := ((s.preferences.putString "mqtt_server" m.mqtt_server).putString "mqtt_port"
          (toString m.mqtt_port)).putString "mqtt_user" m.mqtt_user
        { s with
          preferences :=
            if m.mqtt_password ≠ PASSWORD_PLACEHOLDER then
              p1.putString "mqtt_pass" m.mqtt_password
            else p1
          mqtt_server := toCharArray m.mqtt_server 40
          mqtt_port := toCharArray (toString m.mqtt_port) 6
          mqtt_user := toCharArray m.mqtt_user 40
          mqtt_password :=
            if m.mqtt_password ≠ PASSWORD_PLACEHOLDER then toCharArray m.mqtt_password 40
            else s.mqtt_password
          log := s.log ++ [Effect.putString "mqtt_server" m.mqtt_server,
              Effect.putString "mqtt_port" (toString m.mqtt_port),
              Effect.putString "mqtt_user" m.mqtt_user]
            ++ (if m.mqtt_password ≠ PASSWORD_PLACEHOLDER then
                  [Effect.putString "mqtt_pass" m.mqtt_password]
                else [])
            ++ [Effect.httpSend 200 "application/json" "\x7b\"success\":true\x7d",
              Effect.restart] }

/-! ## `src/main.cpp`: `setup` and `loop` -/

/-- What `setupWiFi` reads from the WiFi manager. -/
structure PortalResult where
  /-- The result of `wifiManager.autoConnect`. -/
  connected : Bool
  /-- The value of the custom parameter `server`. -/
  server : String
  /-- The value of the custom parameter `port`. -/
  port : String
  /-- The value of the custom parameter `user`. -/
  user : String
  /-- The value of the custom parameter `password`. -/
  password : String

/-- The function `setupWiFi`: a restart when `autoConnect` fails; otherwise the station is
connected, the flags are set and the broker settings of the portal are stored when a server
was given. -/
def setupWiFi (s : Sys) (r : PortalResult) : Sys :=
  if !r.connected then s.emit [Effect.restart]
  else
    let s1 : Sys := { s with staConnected := true, wifiConnected := true, apModeActive := false }
    if r.server.length > 0 then
      { s1 with
        preferences :=
          (((s1.preferences.putString "mqtt_server" r.server).putString "mqtt_port"
            r.port).putString "mqtt_user" r.user).putString "mqtt_pass" r.password
        mqtt_server := toCharArray r.server 40
        mqtt_port := toCharArray r.port 6
        mqtt_user := toCharArray r.user 40
        mqtt_password := toCharArray r.password 40
        log := s1.log ++ [Effect.putString "mqtt_server" r.server,
          Effect.putString "mqtt_port" r.port, Effect.putString "mqtt_user" r.user,
          Effect.putString "mqtt_pass" r.password] }
    else s1

/-- The function `setupMDNS`. -/
def setupMDNS (s : Sys) : Sys := s.emit [Effect.mdnsBegin]

/-- The function `setupMQTT`: `reconnectMQTT` is called when a server is configured.  The
configuration calls on the client are not recorded. -/
def setupMQTT (s : Sys) (c : ConnectAttempt) : Option Sys :=
  if s.mqtt_server.length > 0 then reconnectMQTT s c else some s

/-- What `setup` reads from the platform. -/
structure BootInputs where
  /-- What `setupWiFi` reads. -/
  portal : PortalResult
  /-- What the `reconnectMQTT` call of `setupMQTT` reads. -/
  attempt : ConnectAttempt

/-- The function `setup`, run without platform events in between: nothing runs after the
restart of a failed `setupWiFi`. -/
def setup (s : Sys) (b : BootInputs) : Option Sys :=
  let s1 := setupWiFi (restoreRelayStates (relayControl_init s)) b.portal
  if !b.portal.connected then some s1
  else setupMQTT (setupMDNS s1) b.attempt

/-- What one pass of `loop` reads from the platform. -/
structure LoopInputs where
  /-- What `checkWiFiConnection` reads. -/
  poll : Poll
  /-- What `reconnectMQTT` reads, when it is called. -/
  attempt : ConnectAttempt
  /-- The message `mqttClient.loop()` delivers, if any: topic and payload bytes. -/
  inbound : Option (String × List Nat)

/-- The function `loop`. -/
def loop (s : Sys) (i : LoopInputs) : Option Sys :=
  let s1 := checkWiFiConnection s i.poll
  if s1.staConnected then
    (if !s1.mqttConnected then reconnectMQTT s1 i.attempt else some s1).map fun s2 =>
      mqttClient_loop s2 i.inbound
  else some s1

/-! ## Runs of the broker session -/

/-- The state `w` with the statics of `reconnectMQTT`, the instrumentation and the log taken
from `s`: the state a call of `reconnectMQTT` starts from when the previous call ended in
`s` and the rest of the program and the platform have moved on to `w` since.  No other
function can reach the statics. -/
def Sys.withSession (w s : Sys) : Sys :=
  { w with
    lastAttempt := s.lastAttempt
    discoveryPublished := s.discoveryPublished
    publishDiscoveryCalls := s.publishDiscoveryCalls
    log := s.log }

/-- One call of `reconnectMQTT` within a boot: the state of the rest of the program and of
the platform at the call, and what the call reads. -/
structure SessionCall where
  /-- The globals and the platform at the call. -/
  world : Sys
  /-- What the call reads from the platform. -/
  attempt : ConnectAttempt

/-- A sequence of calls of `reconnectMQTT`, oldest first, starting with the statics of `s`;
`none` when a call reads `RELAY_NAMES` out of bounds. -/
def reconnectRun (s : Sys) : List SessionCall → Option Sys
  | [] => some s
  | call :: rest =>
    (reconnectMQTT (call.world.withSession s) call.attempt).bind fun s' => reconnectRun s' rest

/-- The clock reads of a sequence of calls of `reconnectMQTT` happen in order, none before
time `t`: in each call the guard reads the clock no later than the assignment to
`lastAttempt` does, and a call ends before the next one begins. -/
def TimeOrderedFrom (t : Nat) : List SessionCall → Prop
  | [] => True
  | call :: rest =>
    t ≤ call.attempt.guardTime ∧ call.attempt.guardTime ≤ call.attempt.stampTime
      ∧ TimeOrderedFrom call.attempt.stampTime rest

/-- A sequence of passes of `loop`, oldest first; `none` when a pass reads `RELAY_NAMES` out
of bounds. -/
def loopRun (s : Sys) : List LoopInputs → Option Sys
  | [] => some s
  | i :: rest => (loop s i).bind fun s' => loopRun s' rest

/-- A sequence of calls of `checkWiFiConnection`, oldest first. -/
def pollRun (s : Sys) (polls : List Poll) : Sys :=
  polls.foldl checkWiFiConnection s

/-! ## Runs of the program -/

/-- One atomic step of the program or of the platform around it.  The handlers left out
(`GET` routes, `/api/wifi/reconfigure`, `/api/reset`, `/api/restart`) write neither the store
nor a global; the restart the last two end in is a `boot`. -/
inductive Event where
  /-- A reset (power cycle or `ESP.restart()`), which keeps only the store, followed by
  `setup`. -/
  | boot (b : BootInputs)
  /-- One pass of `loop`. -/
  | tick (i : LoopInputs)
  /-- The platform event `ARDUINO_EVENT_WIFI_STA_GOT_IP`. -/
  | gotIP
  /-- The platform event `ARDUINO_EVENT_WIFI_STA_DISCONNECTED`. -/
  | disconnected
  /-- The broker session is lost: `mqttClient.connected()` turns `false`. -/
  | sessionLost
  /-- A request `POST /api/relay`. -/
  | apiRelay (body : Option (Int × Bool))
  /-- A request `POST /api/admin/config`. -/
  | adminConfig (authenticated : Bool) (body : Option Int)
  /-- A request `POST /api/admin/mqtt`. -/
  | adminMqtt (authenticated : Bool) (body : Option MqttSettings)

/-- The state after one event; `none` when the step reads `RELAY_NAMES` out of bounds. -/
def programStep (s : Sys) : Event → Option Sys
  | Event.boot b => setup (powerOn s.preferences s.efuseMac) b
  | Event.tick i => loop s i
  | Event.gotIP => some (staGotIP s)
  | Event.disconnected => some (staDisconnected s)
  | Event.sessionLost => some { s with mqttConnected := false }
  | Event.apiRelay body => some (handleApiRelay s body)
  | Event.adminConfig authenticated body => some (handleAdminConfig s authenticated body)
  | Event.adminMqtt authenticated body => some (handleAdminMqtt s authenticated body)

/-- A sequence of events, oldest first; `none` when a step reads `RELAY_NAMES` out of
bounds. -/
def programRun (s : Sys) : List Event → Option Sys
  | [] => some s
  | e :: rest => (programStep s e).bind fun s' => programRun s' rest

/-- The values of the active count the admin handler accepts. -/
def ValidCount (n : Int) : Prop := n = 8 ∨ n = 12 ∨ n = 16

/-- The active count in memory and the one the store yields at the next boot are both
among the accepted values. -/
def CountsValid (s : Sys) : Prop :=
  ValidCount s.activeRelayCount ∧ ValidCount (s.preferences.getInt "active_count" 16)

/-- The static `lastAttempt` of `s` holds the clock value of a time between `lo` and `hi`. -/
def Stamped (s : Sys) (lo hi : Nat) : Prop :=
  ∃ L, lo ≤ L ∧ L ≤ hi ∧ s.lastAttempt = millis L

/-! ## Observing the log -/

/-- The subscriptions to the command topics of all channels, in channel order. -/
def subscriptions : List Effect :=
  (List.range NUM_RELAYS).map fun (i : Nat) => Effect.mqttSubscribe (commandTopic i)

/-- The discovery messages of the channels below `k`, in channel order. -/
def discoveryMessages (k : Nat) : List Effect :=
  (List.range k).filterMap discoveryMessage

/-- The state messages of all channels for the relay bank `rc`, in channel order. -/
def stateMessages (rc : RelayControl) : List Effect :=
  (List.range NUM_RELAYS).map fun (i : Nat) => stateMessage rc i

/-- Whether an effect is a `mqttClient.connect` call. -/
def isMqttConnect : Effect → Bool
  | Effect.mqttConnect _ _ _ _ _ _ => true
  | _ => false

/-- Whether an effect is a publish on the state topic of one of the channels. -/
def isStateMessage : Effect → Bool
  | Effect.mqttPublish topic _ _ =>
    (List.range NUM_RELAYS).any fun (i : Nat) => topic == stateTopic i
  | _ => false

/-- Whether an effect is a publish on the discovery topic of one of the channels. -/
def isDiscoveryMessage : Effect → Bool
  | Effect.mqttPublish topic _ _ =>
    (List.range NUM_RELAYS).any fun (i : Nat) => topic == configTopic i
  | _ => false

/-- The number of `mqttClient.connect` calls in a log. -/
def connectCalls (log : List Effect) : Nat := log.countP isMqttConnect

/-- Whether an effect is a `WiFi.softAP` call. -/
def isSoftAP : Effect → Bool
  | Effect.softAP _ _ => true
  | _ => false

/-- Whether an effect is a `WiFi.begin()` call. -/
def isWifiBegin : Effect → Bool
  | Effect.wifiBegin => true
  | _ => false

/-- The number of `WiFi.softAP` calls in a log: the number of calls of `startAPMode`. -/
def softAPCalls (log : List Effect) : Nat := log.countP isSoftAP

/-- The number of `WiFi.begin()` calls in a log: the number of reconnect attempts begun by
`checkWiFiConnection`. -/
def wifiBeginCalls (log : List Effect) : Nat := log.countP isWifiBegin

/-! ## Sample data -/

/-- An empty store. -/
def emptyStore : Preferences := ⟨fun _ => none⟩

/-- A state after power-on with an empty store in which channel 2 has been switched on. -/
def sampleState : Sys := relayControl_setState (powerOn emptyStore 0) 2 true

/-- The sample state with the broker session connected. -/
def sampleConnected : Sys := { sampleState with mqttConnected := true }

/-- A store that holds the active count 8 and nothing else. -/
def store8 : Preferences := emptyStore.putInt "active_count" 8

/-- The state after a reset over `store8`, once the relay bank is initialised and the store
is read back. -/
def booted8 : Sys := restoreRelayStates (relayControl_init (powerOn store8 0))

/-- The store a device with an empty store holds after the admin page has set the broker
to `10.0.0.5:1883` with user `solacemqtt`, the password field left at the placeholder. -/
def storeAfterAdminMqtt : Preferences :=
  (handleAdminMqtt (powerOn emptyStore 0) true
    (some ⟨"10.0.0.5", 1883, "solacemqtt", PASSWORD_PLACEHOLDER⟩)).preferences

/-- A store that holds a user and a password for the broker but no server. -/
def storeUserOnly : Preferences :=
  (emptyStore.putString "mqtt_user" "alice").putString "mqtt_pass" "secret"

/-! ## Theorems -/

/-! ### Relay bank -/

theorem RelayControl.getState_setState (rc : RelayControl) (index : Int) (v : Bool) (j : Int) :
    (rc.setState index v).1.getState j
      = if j = index ∧ 0 ≤ index ∧ index < 16 then v else rc.getState j := by
  by_cases h : 0 ≤ index ∧ index < 16
  · by_cases hj : j = index
    · subst hj
      simp [RelayControl.setState, RelayControl.getState, h]
    · by_cases hjr : 0 ≤ j ∧ j < 16
      · have hne : j.toNat ≠ index.toNat := by omega
        simp [RelayControl.setState, RelayControl.getState, h, hjr, Function.update, hne, hj]
      · simp [RelayControl.setState, RelayControl.getState, h, hjr, hj]
  · have h' : ¬ (j = index ∧ 0 ≤ index ∧ index < 16) := fun hh => h hh.2
    simp only [if_neg h']
    simp [RelayControl.setState, h]

theorem RelayControl.getState_of_not_range (rc : RelayControl) (j : Int)
    (h : ¬ (0 ≤ j ∧ j < 16)) : rc.getState j = false := by
  simp [RelayControl.getState, h]

/-! ### Store keys -/

theorem relayKey_inj :
    ∀ i j : Fin 16, relayKey (i.val : Int) = relayKey (j.val : Int) → i = j := by
  decide

theorem relayKey_ne_active_count : ∀ i : Fin 16, relayKey (i.val : Int) ≠ "active_count" := by
  decide

theorem relayKey_nat_inj {i j : Nat} (hi : i < 16) (hj : j < 16)
    (h : relayKey (i : Int) = relayKey (j : Int)) : i = j := by
  have := relayKey_inj ⟨i, hi⟩ ⟨j, hj⟩ h
  exact congrArg Fin.val this

/-! ### `saveRelayStates` -/

/-- The loop of `saveRelayStates` over the first `n` channels. -/
theorem saveLoop_spec (s : Sys) (n : Nat) (hn : n ≤ 16) :
    ((List.range n).foldl saveRelayStates_step s).relayControl = s.relayControl
      ∧ ((List.range n).foldl saveRelayStates_step s).log = s.log ++ (List.range n).map
          (fun (i : Nat) => Effect.putBool (relayKey i) (s.relayControl.getState i))
      ∧ (∀ i : Nat, i < n → ((List.range n).foldl saveRelayStates_step s).preferences.entries
          (relayKey i) = some (PrefValue.bool (s.relayControl.getState i)))
      ∧ (∀ k : String, (∀ i : Nat, i < n → k ≠ relayKey i) →
          ((List.range n).foldl saveRelayStates_step s).preferences.entries k
            = s.preferences.entries k) := by
  induction n with
  | zero => simp
  | succ n ih =>
    obtain ⟨h1, h2, h3, h4⟩ := ih (by omega)
    simp only [List.range_succ, List.foldl_append, List.foldl_cons, List.foldl_nil,
      List.map_append, List.map_cons, List.map_nil]
    generalize (List.range n).foldl saveRelayStates_step s = r at h1 h2 h3 h4
    refine ⟨h1, ?_, ?_, ?_⟩
    · simp [saveRelayStates_step, h2, h1]
    · intro i hi
      by_cases hin : i = n
      · subst hin
        simp [saveRelayStates_step, Preferences.putBool, h1]
      · have hlt : i < n := by omega
        have hne : relayKey (i : Int) ≠ relayKey (n : Int) := by
          intro heq
          exact hin (relayKey_nat_inj (by omega) (by omega) heq)
        simp [saveRelayStates_step, Preferences.putBool, hne, h3 i hlt]
    · intro k hk
      have hkn : k ≠ relayKey (n : Int) := hk n (by omega)
      simp only [saveRelayStates_step, Preferences.putBool, if_neg hkn]
      exact h4 k (fun i hi => hk i (by omega))


theorem saveLoop_frame (s : Sys) (n : Nat) :
    (List.range n).foldl saveRelayStates_step s
      = { s with
          preferences := ((List.range n).foldl saveRelayStates_step s).preferences
          log := ((List.range n).foldl saveRelayStates_step s).log } := by
  induction n with
  | zero => simp
  | succ n ih =>
    simp only [List.range_succ, List.foldl_append, List.foldl_cons, List.foldl_nil]
    generalize (List.range n).foldl saveRelayStates_step s = r at ih
    rw [ih]
    simp [saveRelayStates_step]

/-! ### `restoreRelayStates` -/

theorem restoreLoop_spec (s : Sys) (n : Nat) (hn : n ≤ 16) :
    ((List.range n).foldl restoreRelayStates_step s).preferences = s.preferences
      ∧ ((List.range n).foldl restoreRelayStates_step s).activeRelayCount = s.activeRelayCount
      ∧ (∀ i : Nat, i < n →
          ((List.range n).foldl restoreRelayStates_step s).relayControl.getState i
            = s.preferences.getBool (relayKey i) false)
      ∧ (∀ j : Int, ¬ (0 ≤ j ∧ j < n) →
          ((List.range n).foldl restoreRelayStates_step s).relayControl.getState j
            = s.relayControl.getState j) := by
  induction n with
  | zero => simp
  | succ n ih =>
    obtain ⟨h1, h2, h3, h4⟩ := ih (by omega)
    simp only [List.range_succ, List.foldl_append, List.foldl_cons, List.foldl_nil]
    generalize (List.range n).foldl restoreRelayStates_step s = r at h1 h2 h3 h4
    refine ⟨?_, ?_, ?_, ?_⟩
    · simp [restoreRelayStates_step, relayControl_setState, h1]
    · simp [restoreRelayStates_step, relayControl_setState, h2]
    · intro i hi
      simp only [restoreRelayStates_step, relayControl_setState,
        RelayControl.getState_setState, h1]
      by_cases hin : i = n
      · subst hin
        have : (0:Int) ≤ (i : Int) ∧ (i : Int) < 16 := by omega
        simp [this]
      · have hne : ¬ ((i : Int) = (n : Int) ∧ (0 : Int) ≤ (n : Int) ∧ (n : Int) < 16) := by
          omega
        rw [if_neg hne]
        exact h3 i (by omega)
    · intro j hj
      simp only [restoreRelayStates_step, relayControl_setState,
        RelayControl.getState_setState, h1]
      have hne : ¬ (j = (n : Int) ∧ (0 : Int) ≤ (n : Int) ∧ (n : Int) < 16) := by
        omega
      rw [if_neg hne]
      exact h4 j (by omega)

theorem restoreSettings_preferences (s : Sys) :
    (restoreSettings s).preferences = s.preferences := by
  simp only [restoreSettings]
  split <;> rfl

theorem restoreSettings_activeRelayCount (s : Sys) :
    (restoreSettings s).activeRelayCount = s.preferences.getInt "active_count" 16 := by
  simp only [restoreSettings]
  split <;> rfl

theorem restoreRelayStates_getState (s : Sys) (i : Int) (hi : 0 ≤ i ∧ i < 16) :
    (restoreRelayStates s).relayControl.getState i
      = s.preferences.getBool (relayKey i) false := by
  obtain ⟨_, _, h3, _⟩ := restoreLoop_spec (restoreSettings s) 16 (le_refl _)
  have := h3 i.toNat (by omega)
  have hcast : ((i.toNat : Nat) : Int) = i := by omega
  rw [hcast, restoreSettings_preferences] at this
  exact this

theorem restoreRelayStates_activeRelayCount (s : Sys) :
    (restoreRelayStates s).activeRelayCount = s.preferences.getInt "active_count" 16 := by
  obtain ⟨_, h2, _, _⟩ := restoreLoop_spec (restoreSettings s) 16 (le_refl _)
  unfold restoreRelayStates
  rw [h2, restoreSettings_activeRelayCount]

theorem saveRelayStates_getBool (s : Sys) (i : Int) (hi : 0 ≤ i ∧ i < 16) (d : Bool) :
    (saveRelayStates s).preferences.getBool (relayKey i) d = s.relayControl.getState i := by
  obtain ⟨_, _, h3, _⟩ := saveLoop_spec s 16 (le_refl _)
  have := h3 i.toNat (by omega)
  have hcast : ((i.toNat : Nat) : Int) = i := by omega
  rw [hcast] at this
  simp [Preferences.getBool, saveRelayStates, this]

theorem saveRelayStates_entries_other (s : Sys) (k : String)
    (hk : ∀ i : Nat, i < 16 → k ≠ relayKey i) :
    (saveRelayStates s).preferences.entries k = s.preferences.entries k := by
  obtain ⟨_, _, _, h4⟩ := saveLoop_spec s 16 (le_refl _)
  exact h4 k hk

theorem active_count_ne_relayKey (i : Nat) (hi : i < 16) : "active_count" ≠ relayKey i :=
  fun h => relayKey_ne_active_count ⟨i, hi⟩ h.symm

/-! ### Claims on the relay bank and the store -/

/-- C1: after `setState(index, v)`, `getState(index)` is `v` when `0 <= index < 16` and
`false` otherwise, and `getState(j)` is unchanged for every `j` other than `index`. -/
theorem setState_then_getState (rc : RelayControl) (index : Int) (v : Bool) :
    (rc.setState index v).1.getState index
        = (if 0 ≤ index ∧ index < 16 then v else false)
      ∧ ∀ j : Int, j ≠ index → (rc.setState index v).1.getState j = rc.getState j := by
  constructor
  · rw [RelayControl.getState_setState]
    by_cases h : 0 ≤ index ∧ index < 16
    · simp [h]
    · simp [h, RelayControl.getState_of_not_range rc index h]
  · intro j hj
    rw [RelayControl.getState_setState]
    simp [hj]

/-- C2: for an index that is negative or at least 16, the handler of `POST /api/relay` called
with `relay = index + 1` leaves the relay bank and the store as they are, and all it does is
send the 400 response `Invalid relay ID`: no state publish, no store write. -/
theorem handleApiRelay_invalid_index (s : Sys) (index : Int) (v : Bool)
    (h : index < 0 ∨ 16 ≤ index) :
    (handleApiRelay s (some (index + 1, v))).relayControl = s.relayControl
      ∧ (handleApiRelay s (some (index + 1, v))).preferences = s.preferences
      ∧ (handleApiRelay s (some (index + 1, v))).log
          = s.log ++ [Effect.httpSend 400 "application/json"
              "\x7b\"error\":\"Invalid relay ID\"\x7d"] := by
  have hr : ¬ (1 ≤ index + 1 ∧ index + 1 ≤ (NUM_RELAYS : Int)) := by
    simp only [NUM_RELAYS]
    omega
  have heq : handleApiRelay s (some (index + 1, v))
      = s.emit [Effect.httpSend 400 "application/json"
          "\x7b\"error\":\"Invalid relay ID\"\x7d"] := by
    simp only [handleApiRelay]
    rw [if_neg hr]
  rw [heq]
  exact ⟨rfl, rfl, rfl⟩

/-- Witness of C2: index 16, that is `relay = 17`, on the sample state. -/
theorem handleApiRelay_invalid_index_witness :
    ((16 : Int) < 0 ∨ (16 : Int) ≤ 16)
      ∧ (handleApiRelay sampleState (some (16 + 1, true))).log
          = sampleState.log ++ [Effect.httpSend 400 "application/json"
              "\x7b\"error\":\"Invalid relay ID\"\x7d"] :=
  ⟨by decide, (handleApiRelay_invalid_index sampleState 16 true (by decide)).2.2⟩

/-- C3: when the admin handler has written a count `c` among 8, 12 and 16 to the store and
`saveRelayStates` then runs in a state `t` over that store, `restoreRelayStates` on a
freshly initialised relay bank after a reset over the resulting store gives every channel
the state it had in `t` and `activeRelayCount` the value `c`, the value the handler also
left in `activeRelayCount`. -/
theorem save_restore_roundtrip (s t : Sys) (c : Int) (mac : Nat)
    (hc : c = 8 ∨ c = 12 ∨ c = 16)
    (ht : t.preferences = (handleAdminConfig s true (some c)).preferences) :
    (∀ i : Int,
      (restoreRelayStates (relayControl_init
        (powerOn (saveRelayStates t).preferences mac))).relayControl.getState i
        = t.relayControl.getState i)
    ∧ (restoreRelayStates (relayControl_init
        (powerOn (saveRelayStates t).preferences mac))).activeRelayCount = c
    ∧ (handleAdminConfig s true (some c)).activeRelayCount = c := by
  have hvalid : ¬ (c ≠ 8 ∧ c ≠ 12 ∧ c ≠ 16) := by omega
  have hcnt : t.preferences.entries "active_count" = some (PrefValue.int c) := by
    rw [ht]
    simp [handleAdminConfig, hvalid, Preferences.putInt]
  refine ⟨?_, ?_, ?_⟩
  · intro i
    by_cases hi : 0 ≤ i ∧ i < 16
    · rw [restoreRelayStates_getState _ i hi]
      show (saveRelayStates t).preferences.getBool (relayKey i) false = _
      rw [saveRelayStates_getBool _ i hi]
    · rw [RelayControl.getState_of_not_range _ i hi, RelayControl.getState_of_not_range _ i hi]
  · rw [restoreRelayStates_activeRelayCount]
    show (saveRelayStates t).preferences.getInt "active_count" 16 = c
    unfold Preferences.getInt
    rw [saveRelayStates_entries_other _ _ active_count_ne_relayKey, hcnt]
  · simp [handleAdminConfig, hvalid]

/-- Witness of C3: the handler writes the count 8 in the sample state, where channel 2 is
on, and the table is saved in the state the handler leaves. -/
theorem save_restore_roundtrip_witness :
    ((8 : Int) = 8 ∨ (8 : Int) = 12 ∨ (8 : Int) = 16)
      ∧ (handleAdminConfig sampleState true (some 8)).preferences
          = (handleAdminConfig sampleState true (some 8)).preferences
      ∧ (restoreRelayStates (relayControl_init (powerOn
          (saveRelayStates (handleAdminConfig sampleState true (some 8))).preferences
          0))).relayControl.getState 2
          = (handleAdminConfig sampleState true (some 8)).relayControl.getState 2
      ∧ (restoreRelayStates (relayControl_init (powerOn
          (saveRelayStates (handleAdminConfig sampleState true (some 8))).preferences
          0))).activeRelayCount = 8 :=
  ⟨by decide, rfl,
    (save_restore_roundtrip sampleState (handleAdminConfig sampleState true (some 8)) 8 0
      (by decide) rfl).1 2,
    (save_restore_roundtrip sampleState (handleAdminConfig sampleState true (some 8)) 8 0
      (by decide) rfl).2.1⟩

/-! ### Broker session: loops -/

theorem Sys.emit_emit (s : Sys) (a b : List Effect) : (s.emit a).emit b = s.emit (a ++ b) := by
  simp [Sys.emit, List.append_assoc]

theorem Sys.emit_nil (s : Sys) : s.emit [] = s := by
  simp [Sys.emit]

theorem subscribeLoop_eq (s : Sys) (n : Nat) :
    (List.range n).foldl subscribe_step s
      = s.emit ((List.range n).map fun (i : Nat) => Effect.mqttSubscribe (commandTopic i)) := by
  induction n with
  | zero => simp [Sys.emit_nil]
  | succ n ih =>
    simp only [List.range_succ, List.foldl_append, List.foldl_cons, List.foldl_nil, ih,
      List.map_append, List.map_cons, List.map_nil, subscribe_step, Sys.emit_emit]

theorem publishStateLoop_connected (s : Sys) (n : Nat) (h : s.mqttConnected = true) :
    (List.range n).foldl publishState_step s
      = s.emit ((List.range n).map fun (i : Nat) => stateMessage s.relayControl i) := by
  induction n with
  | zero => simp [Sys.emit_nil]
  | succ n ih =>
    simp only [List.range_succ, List.foldl_append, List.foldl_cons, List.foldl_nil, ih,
      List.map_append, List.map_cons, List.map_nil, publishState_step, publishState]
    have hc : (s.emit ((List.range n).map fun (i : Nat) =>
        stateMessage s.relayControl i)).mqttConnected = true := h
    simp only [hc, Bool.not_true, Bool.false_eq_true, if_false, Sys.emit_emit]
    rfl

theorem publishStateLoop_disconnected (s : Sys) (n : Nat) (h : s.mqttConnected = false) :
    (List.range n).foldl publishState_step s = s := by
  induction n with
  | zero => simp
  | succ n ih =>
    simp [List.range_succ, List.foldl_append, ih, publishState_step, publishState, h]

theorem discoveryMessage_isSome (i : Nat) (hi : i < 16) : (discoveryMessage i).isSome = true := by
  have h : ∀ j : Fin 16, (RELAY_NAMES[j.val]?).isSome = true := by decide
  have hi' := h ⟨i, hi⟩
  simp only [discoveryMessage, Option.isSome_map']
  exact hi'

theorem publishDiscoveryLoop_eq (s : Sys) (n : Nat) (hn : n ≤ 16) :
    (List.range n).foldlM publishDiscovery_step s
      = some (s.emit ((List.range n).filterMap discoveryMessage)) := by
  induction n with
  | zero => simp [Sys.emit_nil]
  | succ n ih =>
    obtain ⟨m, hm⟩ := Option.isSome_iff_exists.mp (discoveryMessage_isSome n (by omega))
    simp [List.range_succ, List.foldlM_append, ih (by omega), publishDiscovery_step, hm,
      List.filterMap_append, Sys.emit_emit]

/-! ### Broker session: the outcomes of `reconnectMQTT` -/

theorem reconnectMQTT_limited (s : Sys) (c : ConnectAttempt)
    (hg : usub (millis c.guardTime) s.lastAttempt < 5000) :
    reconnectMQTT s c = some s := by
  simp [reconnectMQTT, hg]

theorem reconnectMQTT_no_server (s : Sys) (c : ConnectAttempt)
    (hg : ¬ usub (millis c.guardTime) s.lastAttempt < 5000) (hs : s.mqtt_server.length = 0) :
    reconnectMQTT s c = some { s with lastAttempt := millis c.stampTime } := by
  simp only [reconnectMQTT, if_neg hg, hs, if_true]

theorem reconnectMQTT_failed (s : Sys) (c : ConnectAttempt)
    (hg : ¬ usub (millis c.guardTime) s.lastAttempt < 5000) (hs : s.mqtt_server.length ≠ 0)
    (hc : c.connected = false) :
    reconnectMQTT s c = some { s with
      lastAttempt := millis c.stampTime
      mqttConnected := false
      log := s.log ++ [connectCall s] } := by
  simp only [reconnectMQTT, if_neg hg, if_neg hs, hc, Bool.false_eq_true, if_false]
  rfl

theorem reconnectMQTT_again (s : Sys) (c : ConnectAttempt)
    (hg : ¬ usub (millis c.guardTime) s.lastAttempt < 5000) (hs : s.mqtt_server.length ≠ 0)
    (hc : c.connected = true) (hd : s.discoveryPublished = true) :
    reconnectMQTT s c = some { s with
      lastAttempt := millis c.stampTime
      mqttConnected := true
      log := s.log ++ ([connectCall s, Effect.mqttPublish availTopic "online" true]
        ++ subscriptions) } := by
  simp only [reconnectMQTT, if_neg hg, if_neg hs, hc, if_true, subscribeLoop_eq, Sys.emit_emit]
  simp [Sys.emit, hd, subscriptions, connectCall, clientId]

theorem reconnectMQTT_first (s : Sys) (c : ConnectAttempt)
    (hg : ¬ usub (millis c.guardTime) s.lastAttempt < 5000) (hs : s.mqtt_server.length ≠ 0)
    (hc : c.connected = true) (hd : s.discoveryPublished = false)
    (hk : s.activeRelayCount.toNat ≤ 16) :
    reconnectMQTT s c = some { s with
      lastAttempt := millis c.stampTime
      mqttConnected := true
      discoveryPublished := true
      publishDiscoveryCalls := s.publishDiscoveryCalls + 1
      log := s.log ++ ([connectCall s, Effect.mqttPublish availTopic "online" true]
        ++ subscriptions ++ discoveryMessages s.activeRelayCount.toNat
        ++ stateMessages s.relayControl) } := by
  simp only [reconnectMQTT, if_neg hg, if_neg hs, hc, if_true, subscribeLoop_eq, Sys.emit_emit]
  simp only [Sys.emit, hd, publishDiscovery, Bool.not_true, Bool.not_false, Bool.false_eq_true,
    if_false, if_true]
  rw [publishDiscoveryLoop_eq _ _ hk]
  simp only [Option.map_some', Sys.emit]
  rw [publishStateLoop_connected _ _ rfl]
  simp [Sys.emit, subscriptions, discoveryMessages, stateMessages, connectCall, clientId]

/-! ### Classifying the messages of the broker session -/

theorem stateTopic_isState :
    ∀ i : Fin 16,
      ((List.range NUM_RELAYS).any fun (j : Nat) =>
        stateTopic (i.val : Int) == stateTopic j) = true := by
  decide

theorem configTopic_not_isState :
    ∀ i : Fin 16,
      ((List.range NUM_RELAYS).any fun (j : Nat) =>
        configTopic (i.val : Int) == stateTopic j) = false := by
  decide

theorem configTopic_isDiscovery :
    ∀ i : Fin 16,
      ((List.range NUM_RELAYS).any fun (j : Nat) =>
        configTopic (i.val : Int) == configTopic j) = true := by
  decide

theorem stateTopic_not_isDiscovery :
    ∀ i : Fin 16,
      ((List.range NUM_RELAYS).any fun (j : Nat) =>
        stateTopic (i.val : Int) == configTopic j) = false := by
  decide

theorem availTopic_not_isState :
    ((List.range NUM_RELAYS).any fun (j : Nat) => availTopic == stateTopic j) = false := by
  decide

theorem availTopic_not_isDiscovery :
    ((List.range NUM_RELAYS).any fun (j : Nat) => availTopic == configTopic j) = false := by
  decide


theorem isStateMessage_stateMessage (rc : RelayControl) (i : Nat) (hi : i < 16) :
    isStateMessage (stateMessage rc i) = true :=
  stateTopic_isState ⟨i, hi⟩

theorem isDiscoveryMessage_stateMessage (rc : RelayControl) (i : Nat) (hi : i < 16) :
    isDiscoveryMessage (stateMessage rc i) = false :=
  stateTopic_not_isDiscovery ⟨i, hi⟩

theorem discoveryMessage_classes (i : Nat) (hi : i < 16) (m : Effect)
    (hm : discoveryMessage i = some m) :
    isDiscoveryMessage m = true ∧ isStateMessage m = false := by
  simp only [discoveryMessage, Option.map_eq_some'] at hm
  obtain ⟨name, _, rfl⟩ := hm
  exact ⟨configTopic_isDiscovery ⟨i, hi⟩, configTopic_not_isState ⟨i, hi⟩⟩

theorem countP_subscriptions (p : Effect → Bool)
    (hp : ∀ topic, p (Effect.mqttSubscribe topic) = false) :
    subscriptions.countP p = 0 := by
  rw [List.countP_eq_zero]
  intro a ha
  simp only [subscriptions, List.mem_map] at ha
  obtain ⟨i, _, rfl⟩ := ha
  simp [hp]

theorem countP_isState_stateMessages (rc : RelayControl) :
    (stateMessages rc).countP isStateMessage = 16 := by
  have hlen : (stateMessages rc).length = 16 := by simp [stateMessages]
  rw [← hlen, List.countP_eq_length]
  intro a ha
  simp only [stateMessages, List.mem_map, List.mem_range] at ha
  obtain ⟨i, hi, rfl⟩ := ha
  exact isStateMessage_stateMessage rc i hi

theorem countP_isDiscovery_stateMessages (rc : RelayControl) :
    (stateMessages rc).countP isDiscoveryMessage = 0 := by
  rw [List.countP_eq_zero]
  intro a ha
  simp only [stateMessages, List.mem_map, List.mem_range] at ha
  obtain ⟨i, hi, rfl⟩ := ha
  simp [isDiscoveryMessage_stateMessage rc i hi]

theorem discoveryMessages_length (k : Nat) (hk : k ≤ 16) :
    (discoveryMessages k).length = k := by
  unfold discoveryMessages
  induction k with
  | zero => simp
  | succ n ih =>
    obtain ⟨m, hm⟩ := Option.isSome_iff_exists.mp (discoveryMessage_isSome n (by omega))
    simp [List.range_succ, List.filterMap_append, ih (by omega), hm]

theorem countP_isDiscovery_discoveryMessages (k : Nat) (hk : k ≤ 16) :
    (discoveryMessages k).countP isDiscoveryMessage = k := by
  have hlen := discoveryMessages_length k hk
  conv_rhs => rw [← hlen]
  rw [List.countP_eq_length]
  intro a ha
  simp only [discoveryMessages, List.mem_filterMap, List.mem_range] at ha
  obtain ⟨i, hi, hm⟩ := ha
  exact (discoveryMessage_classes i (by omega) a hm).1

theorem countP_isState_discoveryMessages (k : Nat) (hk : k ≤ 16) :
    (discoveryMessages k).countP isStateMessage = 0 := by
  rw [List.countP_eq_zero]
  intro a ha
  simp only [discoveryMessages, List.mem_filterMap, List.mem_range] at ha
  obtain ⟨i, hi, hm⟩ := ha
  simp [(discoveryMessage_classes i (by omega) a hm).2]

theorem isStateMessage_online :
    isStateMessage (Effect.mqttPublish availTopic "online" true) = false :=
  availTopic_not_isState

theorem isDiscoveryMessage_online :
    isDiscoveryMessage (Effect.mqttPublish availTopic "online" true) = false :=
  availTopic_not_isDiscovery

/-! ### Claims on the broker session -/

/-- C4, as amended: with `activeRelayCount = k` for `k` among 8, 12 and 16, the first
successful broker connect of `reconnectMQTT` makes, in this order, the connect call, the
availability publish, the 16 subscriptions, the `k` discovery messages of channels
`0..k-1` and the 16 state messages of channels `0..15`: `k` discovery messages and 16
state messages. -/
theorem first_connect_messages (s : Sys) (c : ConnectAttempt) (k : Nat)
    (hk : k = 8 ∨ k = 12 ∨ k = 16) (hcount : s.activeRelayCount = k)
    (hg : ¬ usub (millis c.guardTime) s.lastAttempt < 5000)
    (hs : s.mqtt_server.length ≠ 0) (hc : c.connected = true)
    (hd : s.discoveryPublished = false) :
    ∃ s', reconnectMQTT s c = some s'
      ∧ s'.log = s.log ++ ([connectCall s, Effect.mqttPublish availTopic "online" true]
          ++ subscriptions ++ discoveryMessages k ++ stateMessages s.relayControl)
      ∧ (discoveryMessages k).length = k
      ∧ (stateMessages s.relayControl).length = 16
      ∧ s'.log.countP isDiscoveryMessage = s.log.countP isDiscoveryMessage + k
      ∧ s'.log.countP isStateMessage = s.log.countP isStateMessage + 16 := by
  have hk16 : k ≤ 16 := by omega
  have hto : s.activeRelayCount.toNat = k := by rw [hcount]; simp
  refine ⟨_, reconnectMQTT_first s c hg hs hc hd (by omega), ?_, ?_, ?_, ?_, ?_⟩
  · simp only [hto]
  · exact discoveryMessages_length k hk16
  · simp [stateMessages]
  · simp only [hto, List.countP_append, List.countP_cons, List.countP_nil,
      countP_subscriptions isDiscoveryMessage (fun _ => rfl),
      countP_isDiscovery_discoveryMessages k hk16, countP_isDiscovery_stateMessages,
      isDiscoveryMessage_online]
    simp [connectCall, isDiscoveryMessage]
  · simp only [hto, List.countP_append, List.countP_cons, List.countP_nil,
      countP_subscriptions isStateMessage (fun _ => rfl),
      countP_isState_discoveryMessages k hk16, countP_isState_stateMessages,
      isStateMessage_online]
    simp [connectCall, isStateMessage]


/-- Witness of C4 as amended: the first connect after a boot over a store with count 8. -/
theorem first_connect_messages_witness :
    ((8 : Nat) = 8 ∨ (8 : Nat) = 12 ∨ (8 : Nat) = 16)
      ∧ booted8.activeRelayCount = ((8 : Nat) : Int)
      ∧ ¬ usub (millis 5000) booted8.lastAttempt < 5000
      ∧ booted8.mqtt_server.length ≠ 0
      ∧ booted8.discoveryPublished = false
      ∧ ∃ s', reconnectMQTT booted8 ⟨5000, 5000, true⟩ = some s'
        ∧ s'.log = booted8.log ++ ([connectCall booted8,
            Effect.mqttPublish availTopic "online" true]
            ++ subscriptions ++ discoveryMessages 8 ++ stateMessages booted8.relayControl)
        ∧ (discoveryMessages 8).length = 8
        ∧ (stateMessages booted8.relayControl).length = 16
        ∧ s'.log.countP isDiscoveryMessage = booted8.log.countP isDiscoveryMessage + 8
        ∧ s'.log.countP isStateMessage = booted8.log.countP isStateMessage + 16 :=
  ⟨by decide, by decide, by decide, by decide, by decide,
    first_connect_messages booted8 ⟨5000, 5000, true⟩ 8 (by decide) (by decide) (by decide)
      (by decide) rfl (by decide)⟩

/-- Counterexample to C4 as stated: after a boot over a store with count 8, the first
successful connect at 5000 ms makes 8 discovery messages but 16 state messages, one of
them for channel 8. -/
theorem first_connect_state_messages_not_limited :
    (reconnectMQTT booted8 ⟨5000, 5000, true⟩).map (fun s' =>
      (s'.log.countP isDiscoveryMessage, s'.log.countP isStateMessage,
        decide (stateMessage booted8.relayControl 8 ∈ s'.log))) = some (8, 16, true) := by
  decide

theorem filter_isState_subscriptions : subscriptions.filter isStateMessage = [] := by
  rw [List.filter_eq_nil_iff]
  intro a ha
  simp only [subscriptions, List.mem_map] at ha
  obtain ⟨i, _, rfl⟩ := ha
  simp [isStateMessage]

theorem filter_isState_discoveryMessages (k : Nat) (hk : k ≤ 16) :
    (discoveryMessages k).filter isStateMessage = [] := by
  rw [List.filter_eq_nil_iff]
  intro a ha
  simp only [discoveryMessages, List.mem_filterMap, List.mem_range] at ha
  obtain ⟨i, hi, hm⟩ := ha
  simp [(discoveryMessage_classes i (by omega) a hm).2]

theorem filter_isState_stateMessages (rc : RelayControl) :
    (stateMessages rc).filter isStateMessage = stateMessages rc := by
  rw [List.filter_eq_self]
  intro a ha
  simp only [stateMessages, List.mem_map, List.mem_range] at ha
  obtain ⟨i, hi, rfl⟩ := ha
  exact isStateMessage_stateMessage rc i hi

/-- C5, as amended: a successful broker connect of `reconnectMQTT` leaves the relay bank as it
is; when it is the first one of the boot (`discoveryPublished` is still `false`) the state
messages it makes are those of the 16 channels, one each, with the payload of the current
relay bank value; when it is a later one it makes no state message. -/
theorem connect_state_messages (s : Sys) (c : ConnectAttempt)
    (hg : ¬ usub (millis c.guardTime) s.lastAttempt < 5000)
    (hs : s.mqtt_server.length ≠ 0) (hc : c.connected = true)
    (hk : s.activeRelayCount ≤ 16) :
    ∃ s' emitted, reconnectMQTT s c = some s'
      ∧ s'.relayControl = s.relayControl
      ∧ s'.log = s.log ++ emitted
      ∧ emitted.filter isStateMessage
          = if s.discoveryPublished then [] else stateMessages s.relayControl := by
  have hto : s.activeRelayCount.toNat ≤ 16 := by omega
  have hconn : isStateMessage (connectCall s) = false := rfl
  by_cases hd : s.discoveryPublished = true
  · refine ⟨_, _, reconnectMQTT_again s c hg hs hc hd, rfl, rfl, ?_⟩
    simp [hd, List.filter_append, List.filter_cons, hconn, isStateMessage_online,
      filter_isState_subscriptions]
  · have hd' : s.discoveryPublished = false := by simpa using hd
    refine ⟨_, _, reconnectMQTT_first s c hg hs hc hd' hto, rfl, rfl, ?_⟩
    simp [hd', List.filter_append, List.filter_cons, hconn, isStateMessage_online,
      filter_isState_subscriptions, filter_isState_discoveryMessages _ hto,
      filter_isState_stateMessages]

/-- Witness of C5 as amended: the first connect after a boot over a store with count 8. -/
theorem connect_state_messages_witness :
    (¬ usub (millis 5000) booted8.lastAttempt < 5000)
      ∧ booted8.mqtt_server.length ≠ 0
      ∧ booted8.activeRelayCount ≤ 16
      ∧ ∃ s' emitted, reconnectMQTT booted8 ⟨5000, 5000, true⟩ = some s'
        ∧ s'.relayControl = booted8.relayControl
        ∧ s'.log = booted8.log ++ emitted
        ∧ emitted.filter isStateMessage
            = if booted8.discoveryPublished then [] else stateMessages booted8.relayControl :=
  ⟨by decide, by decide, by decide,
    connect_state_messages booted8 ⟨5000, 5000, true⟩ (by decide) (by decide) rfl (by decide)⟩

/-- Counterexample to C5 as stated: after the first connect at 5000 ms the session is lost,
channel 0 is switched on over HTTP, and the broker is reached again at 20000 ms; this second
successful connect makes no state message, and the state of channel 0 is not published. -/
theorem reconnect_publishes_no_state :
    ((reconnectMQTT booted8 ⟨5000, 5000, true⟩).bind fun s1 =>
      (reconnectMQTT (handleApiRelay { s1 with mqttConnected := false } (some (1, true)))
        ⟨20000, 20000, true⟩).map fun s2 =>
        (connectCalls s1.log, s1.log.countP isStateMessage,
          connectCalls s2.log, s2.log.countP isStateMessage,
          s2.relayControl.getState 0, decide (stateMessage s2.relayControl 0 ∈ s2.log)))
      = some (1, 16, 2, 16, true, false) := by
  decide

/-! ### Runs of `reconnectMQTT` -/

theorem reconnectMQTT_defined (s : Sys) (c : ConnectAttempt) (hk : s.activeRelayCount ≤ 16) :
    ∃ s', reconnectMQTT s c = some s'
      ∧ (s' ≠ s → ¬ usub (millis c.guardTime) s.lastAttempt < 5000
          ∧ s'.lastAttempt = millis c.stampTime)
      ∧ (s'.lastAttempt = s.lastAttempt ∨ s'.lastAttempt = millis c.stampTime)
      ∧ ((s'.discoveryPublished = s.discoveryPublished
            ∧ s'.publishDiscoveryCalls = s.publishDiscoveryCalls)
          ∨ (s.discoveryPublished = false ∧ s'.discoveryPublished = true
            ∧ s'.publishDiscoveryCalls = s.publishDiscoveryCalls + 1)) := by
  have hto : s.activeRelayCount.toNat ≤ 16 := by omega
  by_cases hg : usub (millis c.guardTime) s.lastAttempt < 5000
  · exact ⟨_, reconnectMQTT_limited s c hg, fun h => absurd rfl h, Or.inl rfl,
      Or.inl ⟨rfl, rfl⟩⟩
  · by_cases hs : s.mqtt_server.length = 0
    · exact ⟨_, reconnectMQTT_no_server s c hg hs, fun _ => ⟨hg, rfl⟩, Or.inr rfl,
        Or.inl ⟨rfl, rfl⟩⟩
    · cases hc : c.connected with
      | false =>
        exact ⟨_, reconnectMQTT_failed s c hg hs hc, fun _ => ⟨hg, rfl⟩, Or.inr rfl,
          Or.inl ⟨rfl, rfl⟩⟩
      | true =>
        cases hd : s.discoveryPublished with
        | true =>
          exact ⟨_, reconnectMQTT_again s c hg hs hc hd, fun _ => ⟨hg, rfl⟩, Or.inr rfl,
            Or.inl ⟨hd, rfl⟩⟩
        | false =>
          exact ⟨_, reconnectMQTT_first s c hg hs hc hd hto, fun _ => ⟨hg, rfl⟩, Or.inr rfl,
            Or.inr ⟨rfl, rfl, rfl⟩⟩

theorem reconnectMQTT_published (s : Sys) (c : ConnectAttempt)
    (hd : s.discoveryPublished = true) :
    ∃ s', reconnectMQTT s c = some s' ∧ s'.discoveryPublished = true
      ∧ s'.publishDiscoveryCalls = s.publishDiscoveryCalls
      ∧ s'.log.countP isDiscoveryMessage = s.log.countP isDiscoveryMessage := by
  by_cases hg : usub (millis c.guardTime) s.lastAttempt < 5000
  · exact ⟨_, reconnectMQTT_limited s c hg, hd, rfl, rfl⟩
  · by_cases hs : s.mqtt_server.length = 0
    · exact ⟨_, reconnectMQTT_no_server s c hg hs, hd, rfl, rfl⟩
    · have hconn : isDiscoveryMessage (connectCall s) = false := rfl
      cases hc : c.connected with
      | false =>
        refine ⟨_, reconnectMQTT_failed s c hg hs hc, hd, rfl, ?_⟩
        simp [List.countP_append, List.countP_cons, hconn]
      | true =>
        refine ⟨_, reconnectMQTT_again s c hg hs hc hd, hd, rfl, ?_⟩
        simp [List.countP_append, List.countP_cons, hconn, isDiscoveryMessage_online,
          countP_subscriptions isDiscoveryMessage (fun _ => rfl)]

theorem reconnectRun_published (s : Sys) (calls : List SessionCall)
    (hd : s.discoveryPublished = true) :
    ∃ s', reconnectRun s calls = some s' ∧ s'.discoveryPublished = true
      ∧ s'.publishDiscoveryCalls = s.publishDiscoveryCalls
      ∧ s'.log.countP isDiscoveryMessage = s.log.countP isDiscoveryMessage := by
  induction calls generalizing s with
  | nil => exact ⟨s, rfl, hd, rfl, rfl⟩
  | cons call rest ih =>
    obtain ⟨s1, h1, hd1, hp1, hl1⟩ :=
      reconnectMQTT_published (call.world.withSession s) call.attempt hd
    obtain ⟨s2, h2, hd2, hp2, hl2⟩ := ih s1 hd1
    refine ⟨s2, ?_, hd2, ?_, ?_⟩
    · simp [reconnectRun, h1, h2]
    · rw [hp2, hp1]; rfl
    · rw [hl2, hl1]; rfl

theorem reconnectRun_calls (s : Sys) (calls : List SessionCall)
    (hinv : (s.discoveryPublished = false ∧ s.publishDiscoveryCalls = 0)
      ∨ (s.discoveryPublished = true ∧ s.publishDiscoveryCalls = 1))
    (hb : ∀ call ∈ calls, call.world.activeRelayCount ≤ 16) :
    ∃ s', reconnectRun s calls = some s'
      ∧ ((s'.discoveryPublished = false ∧ s'.publishDiscoveryCalls = 0)
        ∨ (s'.discoveryPublished = true ∧ s'.publishDiscoveryCalls = 1)) := by
  induction calls generalizing s with
  | nil => exact ⟨s, rfl, hinv⟩
  | cons call rest ih =>
    obtain ⟨s1, h1, _, _, hstep⟩ := reconnectMQTT_defined (call.world.withSession s)
      call.attempt (hb call (List.mem_cons_self _ _))
    have hinv1 : (s1.discoveryPublished = false ∧ s1.publishDiscoveryCalls = 0)
        ∨ (s1.discoveryPublished = true ∧ s1.publishDiscoveryCalls = 1) := by
      simp only [Sys.withSession] at hstep
      rcases hstep with ⟨hd, hp⟩ | ⟨hd0, hd, hp⟩
      · rw [hd, hp]; exact hinv
      · rcases hinv with ⟨_, hp0⟩ | ⟨hd1, _⟩
        · right; exact ⟨hd, by rw [hp, hp0]⟩
        · rw [hd1] at hd0; cases hd0
    obtain ⟨s2, h2, hinv2⟩ := ih s1 hinv1 (fun c hc => hb c (List.mem_cons_of_mem _ hc))
    exact ⟨s2, by simp [reconnectRun, h1, h2], hinv2⟩

/-- C6: in every sequence of calls of `reconnectMQTT` within one boot, whatever the call
times, the connect outcomes and the state of the rest of the program at each call,
`publishDiscovery` is entered at most once; once `discoveryPublished` is `true` it stays
`true` through every further call, and no further call enters `publishDiscovery` or makes a
discovery message. -/
theorem publishDiscovery_at_most_once (s0 : Sys) (calls : List SessionCall)
    (h0 : s0.discoveryPublished = false) (hc0 : s0.publishDiscoveryCalls = 0)
    (hb : ∀ call ∈ calls, call.world.activeRelayCount ≤ 16) :
    ∃ s', reconnectRun s0 calls = some s'
      ∧ s'.publishDiscoveryCalls ≤ 1
      ∧ (s'.discoveryPublished = true → ∀ later : List SessionCall,
          ∃ s'', reconnectRun s' later = some s''
            ∧ s''.discoveryPublished = true
            ∧ s''.publishDiscoveryCalls = s'.publishDiscoveryCalls
            ∧ s''.log.countP isDiscoveryMessage = s'.log.countP isDiscoveryMessage) := by
  obtain ⟨s', hrun, hinv⟩ := reconnectRun_calls s0 calls (Or.inl ⟨h0, hc0⟩) hb
  refine ⟨s', hrun, ?_, fun hd later => reconnectRun_published s' later hd⟩
  rcases hinv with ⟨_, hp⟩ | ⟨_, hp⟩ <;> omega


/-- Witness of C6: two successful connects after a boot over a store with count 8. -/
theorem publishDiscovery_at_most_once_witness :
    booted8.discoveryPublished = false
      ∧ booted8.publishDiscoveryCalls = 0
      ∧ (∀ call ∈ [SessionCall.mk booted8 ⟨5000, 5000, true⟩,
            SessionCall.mk booted8 ⟨12000, 12000, true⟩],
          call.world.activeRelayCount ≤ 16)
      ∧ ∃ s', reconnectRun booted8 [SessionCall.mk booted8 ⟨5000, 5000, true⟩,
            SessionCall.mk booted8 ⟨12000, 12000, true⟩] = some s'
        ∧ s'.publishDiscoveryCalls ≤ 1
        ∧ (s'.discoveryPublished = true → ∀ later : List SessionCall,
            ∃ s'', reconnectRun s' later = some s''
              ∧ s''.discoveryPublished = true
              ∧ s''.publishDiscoveryCalls = s'.publishDiscoveryCalls
              ∧ s''.log.countP isDiscoveryMessage = s'.log.countP isDiscoveryMessage) :=
  ⟨by decide, by decide, by decide,
    publishDiscovery_at_most_once booted8 _ (by decide) (by decide) (by decide)⟩

/-! ### The rate limit of `reconnectMQTT` -/

theorem usub_millis (g L : Nat) (h : L ≤ g) (hlt : g < L + 5000) :
    usub (millis g) (millis L) < 5000 := by
  unfold usub millis UL_MOD
  omega

theorem usub_millis_ge (g L : Nat) (h : L ≤ g)
    (hge : ¬ usub (millis g) (millis L) < 5000) : L + 5000 ≤ g := by
  by_contra hcon
  exact hge (usub_millis g L h (by omega))

theorem reconnectMQTT_stamped (s : Sys) (c : ConnectAttempt) (lo t : Nat)
    (hst : Stamped s lo t) (htg : t ≤ c.guardTime) (hgs : c.guardTime ≤ c.stampTime)
    (hk : s.activeRelayCount ≤ 16) :
    ∃ s', reconnectMQTT s c = some s'
      ∧ Stamped s' lo c.stampTime
      ∧ (s' ≠ s → Stamped s' c.stampTime c.stampTime)
      ∧ (c.guardTime < lo + 5000 → s' = s) := by
  obtain ⟨s', hs', hne, hla, _⟩ := reconnectMQTT_defined s c hk
  obtain ⟨L, hlo, hhi, hL⟩ := hst
  refine ⟨s', hs', ?_, ?_, ?_⟩
  · rcases hla with h | h
    · exact ⟨L, hlo, by omega, by rw [h, hL]⟩
    · exact ⟨c.stampTime, by omega, le_refl _, h⟩
  · intro hn
    exact ⟨c.stampTime, le_refl _, le_refl _, (hne hn).2⟩
  · intro hlt
    by_contra hn
    have hg := (hne hn).1
    rw [hL] at hg
    exact hg (usub_millis c.guardTime L (by omega) (by omega))

theorem Stamped.withSession (w s : Sys) (lo hi : Nat) (h : Stamped s lo hi) :
    Stamped (w.withSession s) lo hi := h

theorem reconnectRun_stamped (s : Sys) (calls : List SessionCall) (lo t : Nat)
    (hst : Stamped s lo t) (hord : TimeOrderedFrom t calls)
    (hb : ∀ call ∈ calls, call.world.activeRelayCount ≤ 16) :
    ∃ s' t', reconnectRun s calls = some s' ∧ Stamped s' lo t'
      ∧ ∀ next : List SessionCall,
          TimeOrderedFrom t (calls ++ next) → TimeOrderedFrom t' next := by
  induction calls generalizing s t with
  | nil => exact ⟨s, t, rfl, hst, fun _ h => h⟩
  | cons call rest ih =>
    obtain ⟨htg, hgs, hrest⟩ := hord
    obtain ⟨s1, h1, hst1, _, _⟩ := reconnectMQTT_stamped (call.world.withSession s)
      call.attempt lo t (Stamped.withSession _ _ _ _ hst) htg hgs
      (hb call (List.mem_cons_self _ _))
    obtain ⟨s2, t2, h2, hst2, hnext⟩ := ih s1 call.attempt.stampTime hst1 hrest
      (fun c hc => hb c (List.mem_cons_of_mem _ hc))
    refine ⟨s2, t2, by simp [reconnectRun, h1, h2], hst2, ?_⟩
    intro next hn
    exact hnext next hn.2.2

theorem TimeOrderedFrom.left (l n : List SessionCall) (u : Nat)
    (h : TimeOrderedFrom u (l ++ n)) : TimeOrderedFrom u l := by
  induction l generalizing u with
  | nil => trivial
  | cons a r ih => exact ⟨h.1, h.2.1, ih _ h.2.2⟩

theorem reconnectRun_append (s : Sys) (a b : List SessionCall) :
    reconnectRun s (a ++ b) = (reconnectRun s a).bind fun s' => reconnectRun s' b := by
  induction a generalizing s with
  | nil => simp [reconnectRun]
  | cons call rest ih =>
    simp only [List.cons_append, reconnectRun]
    cases reconnectMQTT (call.world.withSession s) call.attempt with
    | none => rfl
    | some s1 => simp [ih]


/-- C7: `reconnectMQTT` is rate-limited to one attempt per 5 seconds.  In every sequence of
calls within one boot whose clock reads happen in order, starting with `lastAttempt = 0`:
a call made less than 5000 ms after boot, or less than 5000 ms after the stamp of an earlier
call that was an attempt (one that changed the state), is a no-op, leaving the whole state
as it is (no connect, publish or subscribe; `lastAttempt` and `discoveryPublished` as they
were); and between the stamp of a call that issued a broker connect and the guard of a later
call that issued one lie at least 5000 ms. -/
theorem reconnect_rate_limited (s0 : Sys) (before : List SessionCall) (call : SessionCall)
    (h0 : s0.lastAttempt = 0) (hord : TimeOrderedFrom 0 (before ++ [call]))
    (hb : ∀ x ∈ before ++ [call], x.world.activeRelayCount ≤ 16) :
    ∃ s s', reconnectRun s0 before = some s
      ∧ reconnectMQTT (call.world.withSession s) call.attempt = some s'
      ∧ (call.attempt.guardTime < 5000 → s' = call.world.withSession s)
      ∧ ∀ earlier prev between sp sp', before = earlier ++ prev :: between →
          reconnectRun s0 earlier = some sp →
          reconnectMQTT (prev.world.withSession sp) prev.attempt = some sp' →
          (sp' ≠ prev.world.withSession sp →
              call.attempt.guardTime < prev.attempt.stampTime + 5000 →
              s' = call.world.withSession s)
            ∧ (connectCalls sp'.log = connectCalls sp.log + 1 →
              connectCalls s'.log = connectCalls s.log + 1 →
              prev.attempt.stampTime + 5000 ≤ call.attempt.guardTime) := by
  have hst0 : Stamped s0 0 0 := ⟨0, le_refl _, le_refl _, by rw [h0]; rfl⟩
  have hbb : ∀ x ∈ before, x.world.activeRelayCount ≤ 16 :=
    fun x hx => hb x (List.mem_append_left _ hx)
  have hbc : call.world.activeRelayCount ≤ 16 := hb call (by simp)
  obtain ⟨s, t, hrun, hst, hnext⟩ := reconnectRun_stamped s0 before 0 0 hst0
    (TimeOrderedFrom.left before [call] 0 hord) hbb
  obtain ⟨htg, hgs, _⟩ := hnext [call] hord
  obtain ⟨s', hs', _, _, hnoop⟩ := reconnectMQTT_stamped (call.world.withSession s)
    call.attempt 0 t (Stamped.withSession _ _ _ _ hst) htg hgs hbc
  have key : ∀ earlier prev between sp sp', before = earlier ++ prev :: between →
      reconnectRun s0 earlier = some sp →
      reconnectMQTT (prev.world.withSession sp) prev.attempt = some sp' →
      sp' ≠ prev.world.withSession sp →
      call.attempt.guardTime < prev.attempt.stampTime + 5000 →
      s' = call.world.withSession s := by
    intro earlier prev between sp sp' hdec hsp hsp' hchg hlt
    subst hdec
    have hbe : ∀ x ∈ earlier, x.world.activeRelayCount ≤ 16 :=
      fun x hx => hbb x (List.mem_append_left _ hx)
    have hbp : prev.world.activeRelayCount ≤ 16 := hbb prev (by simp)
    have hbw : ∀ x ∈ between, x.world.activeRelayCount ≤ 16 :=
      fun x hx => hbb x (by simp [hx])
    have hord' : TimeOrderedFrom 0 (earlier ++ (prev :: (between ++ [call]))) := by
      simpa [List.append_assoc] using hord
    have horde : TimeOrderedFrom 0 earlier := TimeOrderedFrom.left _ _ 0 hord'
    obtain ⟨sp2, tp, hrun2, hstp, hnextp⟩ := reconnectRun_stamped s0 earlier 0 0 hst0 horde hbe
    rw [hsp] at hrun2
    cases hrun2
    obtain ⟨hp1, hp2, hp3⟩ := hnextp _ hord'
    obtain ⟨sp3, hsp3, _, hnew, _⟩ := reconnectMQTT_stamped (prev.world.withSession sp)
      prev.attempt 0 tp (Stamped.withSession _ _ _ _ hstp) hp1 hp2 hbp
    rw [hsp'] at hsp3
    cases hsp3
    have hstp' := hnew hchg
    have hordw : TimeOrderedFrom prev.attempt.stampTime between :=
      TimeOrderedFrom.left _ _ _ hp3
    obtain ⟨s2, t2, hrun3, hst2, hnext2⟩ := reconnectRun_stamped sp' between
      prev.attempt.stampTime prev.attempt.stampTime hstp' hordw hbw
    have hwhole : reconnectRun s0 (earlier ++ prev :: between) = some s2 := by
      rw [reconnectRun_append, hsp]
      simp [reconnectRun, hsp', hrun3]
    rw [hrun] at hwhole
    cases hwhole
    obtain ⟨hq1, hq2, _⟩ := hnext2 [call] hp3
    obtain ⟨s3, hs3, _, _, hnoop3⟩ := reconnectMQTT_stamped (call.world.withSession s)
      call.attempt prev.attempt.stampTime t2 (Stamped.withSession _ _ _ _ hst2) hq1 hq2 hbc
    rw [hs'] at hs3
    cases hs3
    exact hnoop3 hlt
  refine ⟨s, s', hrun, hs', fun h => hnoop (by omega), ?_⟩
  intro earlier prev between sp sp' hdec hsp hsp'
  refine ⟨key earlier prev between sp sp' hdec hsp hsp', ?_⟩
  intro hcp hcc
  by_contra hlt
  have hchg : sp' ≠ prev.world.withSession sp := by
    intro heq
    rw [heq] at hcp
    simp [Sys.withSession] at hcp
  have hsame := key earlier prev between sp sp' hdec hsp hsp' hchg (by omega)
  rw [hsame] at hcc
  simp [Sys.withSession] at hcc


/-- Witness of C7: after a boot over a store with count 8, a successful connect at 5000 ms
and a call at 7000 ms. -/
theorem reconnect_rate_limited_witness :
    booted8.lastAttempt = 0
      ∧ TimeOrderedFrom 0 ([SessionCall.mk booted8 ⟨5000, 5000, true⟩]
          ++ [SessionCall.mk booted8 ⟨7000, 7000, true⟩])
      ∧ (∀ x ∈ [SessionCall.mk booted8 ⟨5000, 5000, true⟩]
            ++ [SessionCall.mk booted8 ⟨7000, 7000, true⟩],
          x.world.activeRelayCount ≤ 16)
      ∧ ∃ s s', reconnectRun booted8 [SessionCall.mk booted8 ⟨5000, 5000, true⟩] = some s
        ∧ reconnectMQTT (booted8.withSession s) ⟨7000, 7000, true⟩ = some s'
        ∧ ((7000 : Nat) < 5000 → s' = booted8.withSession s)
        ∧ ∀ earlier prev between sp sp',
            [SessionCall.mk booted8 ⟨5000, 5000, true⟩] = earlier ++ prev :: between →
            reconnectRun booted8 earlier = some sp →
            reconnectMQTT (prev.world.withSession sp) prev.attempt = some sp' →
            (sp' ≠ prev.world.withSession sp →
                (7000 : Nat) < prev.attempt.stampTime + 5000 →
                s' = booted8.withSession s)
              ∧ (connectCalls sp'.log = connectCalls sp.log + 1 →
                connectCalls s'.log = connectCalls s.log + 1 →
                prev.attempt.stampTime + 5000 ≤ 7000) :=
  ⟨by decide, ⟨by decide, by decide, by decide, by decide, trivial⟩, by decide,
    reconnect_rate_limited booted8 [SessionCall.mk booted8 ⟨5000, 5000, true⟩]
      (SessionCall.mk booted8 ⟨7000, 7000, true⟩) (by decide)
      ⟨by decide, by decide, by decide, by decide, trivial⟩ (by decide)⟩

/-! ### Station connectivity and the broker session -/

theorem checkWiFiConnection_staConnected (s : Sys) (p : Poll) :
    (checkWiFiConnection s p).staConnected = s.staConnected := by
  simp only [checkWiFiConnection, startAPMode]
  split_ifs <;> rfl

theorem checkWiFiConnection_connectCalls (s : Sys) (p : Poll) :
    connectCalls (checkWiFiConnection s p).log = connectCalls s.log := by
  simp only [checkWiFiConnection, startAPMode]
  split_ifs <;> simp [connectCalls, isMqttConnect]

theorem loop_station_down (s : Sys) (i : LoopInputs) (hs : s.staConnected = false) :
    loop s i = some (checkWiFiConnection s i.poll) := by
  have h := checkWiFiConnection_staConnected s i.poll
  simp [loop, h, hs]

theorem loopRun_station_down (s : Sys) (ticks : List LoopInputs) (hs : s.staConnected = false) :
    ∃ s', loopRun s ticks = some s' ∧ s'.staConnected = false
      ∧ connectCalls s'.log = connectCalls s.log := by
  induction ticks generalizing s with
  | nil => exact ⟨s, rfl, hs, rfl⟩
  | cons i rest ih =>
    have hs1 : (checkWiFiConnection s i.poll).staConnected = false := by
      rw [checkWiFiConnection_staConnected, hs]
    obtain ⟨s', h1, h2, h3⟩ := ih (checkWiFiConnection s i.poll) hs1
    refine ⟨s', ?_, h2, ?_⟩
    · simp [loopRun, loop_station_down s i hs, h1]
    · rw [h3, checkWiFiConnection_connectCalls]

theorem restoreLoop_connectCalls (s : Sys) (n : Nat) :
    connectCalls ((List.range n).foldl restoreRelayStates_step s).log = connectCalls s.log := by
  induction n with
  | zero => rfl
  | succ n ih =>
    simp only [List.range_succ, List.foldl_append, List.foldl_cons, List.foldl_nil]
    rw [← ih]
    generalize (List.range n).foldl restoreRelayStates_step s = r
    simp only [restoreRelayStates_step, relayControl_setState, RelayControl.setState]
    split_ifs <;> simp [connectCalls, isMqttConnect]

theorem restoreRelayStates_connectCalls (s : Sys) :
    connectCalls (restoreRelayStates s).log = connectCalls s.log := by
  unfold restoreRelayStates
  rw [restoreLoop_connectCalls]
  simp only [restoreSettings]
  split_ifs <;> rfl

theorem init_connectCalls (rc : RelayControl) : connectCalls rc.init.2 = 0 := by
  have h : ∀ (l : List (Fin NUM_RELAYS)) (acc : RelayControl × List Effect),
      connectCalls (l.foldl (fun (acc : RelayControl × List Effect) i =>
        ((⟨Function.update acc.1.relayStates i false⟩ : RelayControl),
          acc.2 ++ [Effect.pinModeOutput (RELAY_PINS i),
            Effect.digitalWrite (RELAY_PINS i) false])) acc).2 = connectCalls acc.2 := by
    intro l
    induction l with
    | nil => intro acc; rfl
    | cons a r ih =>
      intro acc
      simp only [List.foldl_cons]
      rw [ih]
      simp [connectCalls, isMqttConnect]
  exact h _ _

theorem relayControl_init_connectCalls (s : Sys) :
    connectCalls (relayControl_init s).log = connectCalls s.log := by
  have h := init_connectCalls s.relayControl
  simp only [connectCalls] at h
  simp [relayControl_init, connectCalls, List.countP_append, h]

theorem setupWiFi_connectCalls (s : Sys) (r : PortalResult) :
    connectCalls (setupWiFi s r).log = connectCalls s.log := by
  simp only [setupWiFi, Sys.emit]
  split_ifs <;> simp [connectCalls, isMqttConnect]

theorem setupWiFi_staConnected (s : Sys) (r : PortalResult) (h : r.connected = true) :
    (setupWiFi s r).staConnected = true := by
  simp only [setupWiFi, h]
  simp only [Bool.not_true, Bool.false_eq_true, if_false]
  split_ifs <;> rfl

/-- C8: a broker connect call is made only while the station is connected.  Over any
number of passes of `loop` during which the station is not connected, from any state, no
connect call is issued and the station stays as the platform reports it.  In `setup`, which
reaches `reconnectMQTT` through `setupMQTT`, no connect call is issued before `setupMQTT`;
`setupMQTT` is not called when `autoConnect` fails, and when it is called the station is
connected. -/
theorem connect_only_while_station_connected (s : Sys) (ticks : List LoopInputs)
    (s0 : Sys) (b : BootInputs) (hs : s.staConnected = false) :
    (∃ s', loopRun s ticks = some s' ∧ s'.staConnected = false
        ∧ connectCalls s'.log = connectCalls s.log)
      ∧ ∃ s1, connectCalls s1.log = connectCalls s0.log
        ∧ (b.portal.connected = false → setup s0 b = some s1)
        ∧ (b.portal.connected = true →
            s1.staConnected = true ∧ setup s0 b = setupMQTT s1 b.attempt) := by
  refine ⟨loopRun_station_down s ticks hs, ?_⟩
  cases hb : b.portal.connected with
  | false =>
    refine ⟨setupWiFi (restoreRelayStates (relayControl_init s0)) b.portal, ?_, ?_, ?_⟩
    · rw [setupWiFi_connectCalls, restoreRelayStates_connectCalls,
        relayControl_init_connectCalls]
    · intro _
      simp [setup, hb]
    · intro h
      cases h
  | true =>
    refine ⟨setupMDNS (setupWiFi (restoreRelayStates (relayControl_init s0)) b.portal),
      ?_, ?_, ?_⟩
    · have : connectCalls (setupMDNS (setupWiFi (restoreRelayStates (relayControl_init s0))
          b.portal)).log
          = connectCalls (setupWiFi (restoreRelayStates (relayControl_init s0)) b.portal).log := by
        simp [setupMDNS, Sys.emit, connectCalls, isMqttConnect]
      rw [this, setupWiFi_connectCalls, restoreRelayStates_connectCalls,
        relayControl_init_connectCalls]
    · intro h
      cases h
    · intro _
      refine ⟨?_, ?_⟩
      · exact setupWiFi_staConnected _ _ hb
      · simp [setup, hb]


/-- Witness of C8: two passes of `loop` at 30 s and 60 s on the state after power-on, where
the station is not connected, and a boot on which `autoConnect` fails. -/
theorem connect_only_while_station_connected_witness :
    (powerOn emptyStore 0).staConnected = false
      ∧ (∃ s', loopRun (powerOn emptyStore 0)
            [⟨⟨30000, 30000, 0⟩, ⟨30000, 30000, true⟩, none⟩,
              ⟨⟨60000, 60000, 0⟩, ⟨60000, 60000, true⟩, none⟩] = some s'
          ∧ s'.staConnected = false
          ∧ connectCalls s'.log = connectCalls (powerOn emptyStore 0).log)
      ∧ ∃ s1, connectCalls s1.log = connectCalls (powerOn emptyStore 0).log
        ∧ ((BootInputs.mk ⟨false, "", "", "", ""⟩ ⟨6000, 6000, true⟩).portal.connected
              = false →
            setup (powerOn emptyStore 0)
              (BootInputs.mk ⟨false, "", "", "", ""⟩ ⟨6000, 6000, true⟩) = some s1)
        ∧ ((BootInputs.mk ⟨false, "", "", "", ""⟩ ⟨6000, 6000, true⟩).portal.connected
              = true →
            s1.staConnected = true
              ∧ setup (powerOn emptyStore 0)
                  (BootInputs.mk ⟨false, "", "", "", ""⟩ ⟨6000, 6000, true⟩)
                = setupMQTT s1 ⟨6000, 6000, true⟩) :=
  ⟨rfl, connect_only_while_station_connected (powerOn emptyStore 0) _ (powerOn emptyStore 0)
    (BootInputs.mk ⟨false, "", "", "", ""⟩ ⟨6000, 6000, true⟩) rfl⟩

/-! ### Inbound commands -/

theorem checkWiFiConnection_startAP (s : Sys) (p : Poll)
    (h : softAPCalls (checkWiFiConnection s p).log = softAPCalls s.log + 1) :
    s.wifiReconnecting = true
      ∧ usub (millis p.now) s.reconnectStartTime > RECONNECT_TIMEOUT := by
  simp only [checkWiFiConnection, startAPMode] at h
  split_ifs at h with h1 h2 h3 h4 h5 h6 h7 <;>
    first
    | exact ⟨h3, h4⟩
    | (simp [softAPCalls, isSoftAP, List.countP_append, List.countP_cons] at h)

theorem checkWiFiConnection_reconnecting (s : Sys) (p : Poll)
    (h : (checkWiFiConnection s p).wifiReconnecting = true) :
    (s.wifiReconnecting = true
        ∧ (checkWiFiConnection s p).reconnectStartTime = s.reconnectStartTime)
      ∨ (wifiBeginCalls (checkWiFiConnection s p).log = wifiBeginCalls s.log + 1
        ∧ (checkWiFiConnection s p).reconnectStartTime = millis p.now) := by
  simp only [checkWiFiConnection, startAPMode] at h ⊢
  split_ifs at h ⊢ with h1 h2 h3 h4 h5 h6 h7 <;>
    first
    | exact Or.inl ⟨h, rfl⟩
    | exact Or.inl ⟨h3, rfl⟩
    | (exact Or.inr ⟨by simp [wifiBeginCalls, isWifiBegin, List.countP_append,
          List.countP_cons], rfl⟩)

theorem pollRun_snoc (s : Sys) (polls : List Poll) (q : Poll) :
    pollRun s (polls ++ [q]) = checkWiFiConnection (pollRun s polls) q := by
  simp [pollRun, List.foldl_append]

theorem pollRun_attempt (s0 : Sys) (before : List Poll) (hr : s0.wifiReconnecting = false)
    (h : (pollRun s0 before).wifiReconnecting = true) :
    ∃ earlier prev between, before = earlier ++ prev :: between
      ∧ wifiBeginCalls (checkWiFiConnection (pollRun s0 earlier) prev).log
          = wifiBeginCalls (pollRun s0 earlier).log + 1
      ∧ (checkWiFiConnection (pollRun s0 earlier) prev).reconnectStartTime = millis prev.now
      ∧ (pollRun s0 before).reconnectStartTime = millis prev.now := by
  induction before using List.reverseRecOn with
  | nil =>
    simp only [pollRun, List.foldl_nil] at h
    rw [hr] at h
    cases h
  | append_singleton l q ih =>
    rw [pollRun_snoc] at h ⊢
    rcases checkWiFiConnection_reconnecting _ q h with ⟨hprev, hsame⟩ | ⟨hbegin, hstart⟩
    · obtain ⟨earlier, prev, between, hdec, hb, hst, hcur⟩ := ih hprev
      refine ⟨earlier, prev, between ++ [q], ?_, hb, hst, ?_⟩
      · rw [hdec]; simp
      · rw [hsame, hcur]
    · exact ⟨l, q, [], rfl, hbegin, hstart, hstart⟩

theorem usub_millis_gt (T Tj : Nat) (hle : Tj ≤ T)
    (h : usub (millis T) (millis Tj) > RECONNECT_TIMEOUT) : Tj + 30000 < T := by
  unfold usub millis UL_MOD RECONNECT_TIMEOUT at h
  omega

/-- C10: starting with no reconnect attempt under way and the station never connecting, in
every sequence of calls of `checkWiFiConnection` made at non-decreasing times, a call that
enters AP fallback (it calls `startAPMode`) is preceded by a call that began the reconnect
attempt, whose time is the one recorded in `reconnectStartTime`, and it happens strictly
more than 30000 ms after that call. -/
theorem ap_fallback_not_before_timeout (s0 : Sys) (before : List Poll) (p : Poll)
    (hr : s0.wifiReconnecting = false)
    (hord : ((before ++ [p]).map Poll.now).Pairwise (· ≤ ·))
    (hcall : softAPCalls (checkWiFiConnection (pollRun s0 before) p).log
      = softAPCalls (pollRun s0 before).log + 1) :
    ∃ earlier prev between, before = earlier ++ prev :: between
      ∧ wifiBeginCalls (checkWiFiConnection (pollRun s0 earlier) prev).log
          = wifiBeginCalls (pollRun s0 earlier).log + 1
      ∧ (checkWiFiConnection (pollRun s0 earlier) prev).reconnectStartTime = millis prev.now
      ∧ (pollRun s0 before).reconnectStartTime = millis prev.now
      ∧ prev.now + 30000 < p.now := by
  obtain ⟨hrec, hto⟩ := checkWiFiConnection_startAP _ p hcall
  obtain ⟨earlier, prev, between, hdec, hb, hst, hcur⟩ := pollRun_attempt s0 before hr hrec
  refine ⟨earlier, prev, between, hdec, hb, hst, hcur, ?_⟩
  have hle : prev.now ≤ p.now := by
    rw [hdec] at hord
    simp only [List.map_append, List.map_cons, List.map_nil, List.pairwise_append,
      List.pairwise_cons] at hord
    have := hord.2.2 prev.now (by simp) p.now (by simp)
    exact this
  rw [hcur] at hto
  exact usub_millis_gt p.now prev.now hle hto

/-- Witness of C10: after power-on with the station down, polls at 30 s and 60.001 s. -/
theorem ap_fallback_not_before_timeout_witness :
    (powerOn emptyStore 0).wifiReconnecting = false
      ∧ (([Poll.mk 30000 30000 0] ++ [Poll.mk 60001 60001 0]).map Poll.now).Pairwise (· ≤ ·)
      ∧ softAPCalls (checkWiFiConnection (pollRun (powerOn emptyStore 0) [Poll.mk 30000 30000 0])
            (Poll.mk 60001 60001 0)).log
          = softAPCalls (pollRun (powerOn emptyStore 0) [Poll.mk 30000 30000 0]).log + 1
      ∧ ∃ earlier prev between, [Poll.mk 30000 30000 0] = earlier ++ prev :: between
        ∧ wifiBeginCalls (checkWiFiConnection (pollRun (powerOn emptyStore 0) earlier) prev).log
            = wifiBeginCalls (pollRun (powerOn emptyStore 0) earlier).log + 1
        ∧ (checkWiFiConnection (pollRun (powerOn emptyStore 0) earlier) prev).reconnectStartTime
            = millis prev.now
        ∧ (pollRun (powerOn emptyStore 0) [Poll.mk 30000 30000 0]).reconnectStartTime
            = millis prev.now
        ∧ prev.now + 30000 < (Poll.mk 60001 60001 0).now :=
  ⟨rfl, by decide, by decide,
    ap_fallback_not_before_timeout (powerOn emptyStore 0) [Poll.mk 30000 30000 0]
      (Poll.mk 60001 60001 0) rfl (by decide) (by decide)⟩


/-! ### AP fallback -/

theorem checkWiFiConnection_apModeActive (s : Sys) (p : Poll) (h : s.apModeActive = true) :
    (checkWiFiConnection s p).apModeActive = true := by
  simp only [checkWiFiConnection, startAPMode]
  split_ifs <;> first | exact h | rfl

theorem pollRun_apModeActive (s : Sys) (polls : List Poll) (h : s.apModeActive = true) :
    (pollRun s polls).apModeActive = true := by
  induction polls generalizing s with
  | nil => exact h
  | cons q rest ih => exact ih _ (checkWiFiConnection_apModeActive s q h)

theorem checkWiFiConnection_ap_begin (s : Sys) (p : Poll) (hap : s.apModeActive = true)
    (h : wifiBeginCalls (checkWiFiConnection s p).log = wifiBeginCalls s.log + 1) :
    ¬ p.clients > 0
      ∧ ¬ usub (millis p.now) s.lastReconnectAttempt < RECONNECT_INTERVAL
      ∧ (checkWiFiConnection s p).wifiReconnecting = true
      ∧ (checkWiFiConnection s p).apModeActive = true
      ∧ (checkWiFiConnection s p).reconnectStartTime = millis p.now := by
  simp only [checkWiFiConnection, startAPMode] at h ⊢
  split_ifs at h ⊢ <;>
    first
    | exact ⟨by assumption, by assumption, rfl, hap, rfl⟩
    | (exfalso; simp_all; done)
    | (simp [wifiBeginCalls, isWifiBegin, List.countP_append, List.countP_cons] at h)

theorem checkWiFiConnection_clients (s : Sys) (p : Poll) (hap : s.apModeActive = true)
    (hc : 1 ≤ p.clients) :
    wifiBeginCalls (checkWiFiConnection s p).log = wifiBeginCalls s.log := by
  have hpos : p.clients > 0 := by omega
  simp only [checkWiFiConnection, startAPMode]
  split_ifs <;>
    first
    | rfl
    | (simp [wifiBeginCalls, isWifiBegin, List.countP_append, List.countP_cons])

theorem pollRun_clients (s : Sys) (polls : List Poll) (hap : s.apModeActive = true)
    (hc : ∀ q ∈ polls, 1 ≤ q.clients) :
    wifiBeginCalls (pollRun s polls).log = wifiBeginCalls s.log := by
  induction polls generalizing s with
  | nil => rfl
  | cons q rest ih =>
    have h1 := checkWiFiConnection_clients s q hap (hc q (List.mem_cons_self _ _))
    have h2 := ih (checkWiFiConnection s q) (checkWiFiConnection_apModeActive s q hap)
      (fun r hr => hc r (List.mem_cons_of_mem _ hr))
    simp only [pollRun, List.foldl_cons] at h2 ⊢
    rw [h2, h1]

theorem usub_millis_interval (T L : Nat) (hle : L ≤ T)
    (h : ¬ usub (millis T) (millis L) < RECONNECT_INTERVAL) : L + 60000 ≤ T := by
  unfold usub millis UL_MOD RECONNECT_INTERVAL at h
  omega

/-- C11: while AP fallback is active, in every sequence of calls of `checkWiFiConnection`
at arbitrary times, `apModeActive` stays `true`; a call that begins a station reconnect
attempt (it calls `WiFi.begin()`) reads zero attached clients and finds at least 60000 ms
between `lastReconnectAttempt` and its clock value (at least 60000 ms of time when
`lastReconnectAttempt` holds the clock value of an earlier time), and it leaves
`wifiReconnecting` and `apModeActive` both `true`; and when every call reads at least one
attached client, no call begins a reconnect attempt. -/
theorem ap_reconnect_conditions (s0 : Sys) (before : List Poll) (p : Poll)
    (hap : s0.apModeActive = true) (hcl : 0 ≤ p.clients) :
    (pollRun s0 before).apModeActive = true
      ∧ (wifiBeginCalls (checkWiFiConnection (pollRun s0 before) p).log
            = wifiBeginCalls (pollRun s0 before).log + 1 →
          p.clients = 0
            ∧ 60000 ≤ usub (millis p.now) (pollRun s0 before).lastReconnectAttempt
            ∧ (∀ L, (pollRun s0 before).lastReconnectAttempt = millis L → L ≤ p.now →
                L + 60000 ≤ p.now)
            ∧ (checkWiFiConnection (pollRun s0 before) p).wifiReconnecting = true
            ∧ (checkWiFiConnection (pollRun s0 before) p).apModeActive = true)
      ∧ ((∀ q ∈ before, 1 ≤ q.clients) →
          wifiBeginCalls (pollRun s0 before).log = wifiBeginCalls s0.log) := by
  have hrun := pollRun_apModeActive s0 before hap
  refine ⟨hrun, ?_, fun hc => pollRun_clients s0 before hap hc⟩
  intro hbegin
  obtain ⟨h1, h2, h3, h4, _⟩ := checkWiFiConnection_ap_begin _ p hrun hbegin
  refine ⟨by omega, ?_, ?_, h3, h4⟩
  · unfold RECONNECT_INTERVAL at h2
    omega
  · intro L hL hle
    rw [hL] at h2
    exact usub_millis_interval p.now L hle h2


/-- Witness of C11: AP fallback entered at 60.001 s after power-on with the station down; a
poll at 100 s with one client attached begins nothing and refreshes `lastReconnectAttempt`,
and the poll at 160 s with no client begins the reconnect attempt. -/
theorem ap_reconnect_conditions_witness :
    (pollRun (powerOn emptyStore 0) [Poll.mk 30000 30000 0, Poll.mk 60001 60001 0]).apModeActive
        = true
      ∧ (0 : Int) ≤ (Poll.mk 160000 160000 0).clients
      ∧ wifiBeginCalls (checkWiFiConnection
            (pollRun (pollRun (powerOn emptyStore 0)
              [Poll.mk 30000 30000 0, Poll.mk 60001 60001 0]) [Poll.mk 100000 100000 1])
            (Poll.mk 160000 160000 0)).log
          = wifiBeginCalls (pollRun (pollRun (powerOn emptyStore 0)
              [Poll.mk 30000 30000 0, Poll.mk 60001 60001 0]) [Poll.mk 100000 100000 1]).log + 1
      ∧ (Poll.mk 160000 160000 0).clients = 0
      ∧ 60000 ≤ usub (millis 160000)
          (pollRun (pollRun (powerOn emptyStore 0)
            [Poll.mk 30000 30000 0, Poll.mk 60001 60001 0])
            [Poll.mk 100000 100000 1]).lastReconnectAttempt
      ∧ wifiBeginCalls (pollRun (pollRun (powerOn emptyStore 0)
            [Poll.mk 30000 30000 0, Poll.mk 60001 60001 0]) [Poll.mk 100000 100000 1]).log
          = wifiBeginCalls (pollRun (powerOn emptyStore 0)
            [Poll.mk 30000 30000 0, Poll.mk 60001 60001 0]).log :=
  ⟨by decide, by decide, by decide,
    ((ap_reconnect_conditions (pollRun (powerOn emptyStore 0)
        [Poll.mk 30000 30000 0, Poll.mk 60001 60001 0]) [Poll.mk 100000 100000 1]
        (Poll.mk 160000 160000 0) (by decide) (by decide)).2.1 (by decide)).1,
    ((ap_reconnect_conditions (pollRun (powerOn emptyStore 0)
        [Poll.mk 30000 30000 0, Poll.mk 60001 60001 0]) [Poll.mk 100000 100000 1]
        (Poll.mk 160000 160000 0) (by decide) (by decide)).2.1 (by decide)).2.1,
    (ap_reconnect_conditions (pollRun (powerOn emptyStore 0)
        [Poll.mk 30000 30000 0, Poll.mk 60001 60001 0]) [Poll.mk 100000 100000 1]
        (Poll.mk 160000 160000 0) (by decide) (by decide)).2.2 (by decide)⟩

/-- C12: in every connectivity state, `onWiFiConnect` leaves `wifiConnected = true`,
`wifiReconnecting = false` and `apModeActive = false`, touches none of the timer fields, and
the platform calls it makes are `WiFi.mode(WIFI_STA)`, exactly when AP mode was active
before, followed by the mDNS restart. -/
theorem onWiFiConnect_connected (s : Sys) :
    (onWiFiConnect s).wifiConnected = true
      ∧ (onWiFiConnect s).wifiReconnecting = false
      ∧ (onWiFiConnect s).apModeActive = false
      ∧ (onWiFiConnect s).log
          = s.log ++ (if s.apModeActive then [Effect.wifiMode WiFiMode.WIFI_STA] else [])
            ++ [Effect.mdnsRestart]
      ∧ (onWiFiConnect s).lastWiFiCheck = s.lastWiFiCheck
      ∧ (onWiFiConnect s).lastReconnectAttempt = s.lastReconnectAttempt
      ∧ (onWiFiConnect s).reconnectStartTime = s.reconnectStartTime := by
  cases h : s.apModeActive <;> simp [onWiFiConnect, Sys.emit, h]

/-- C13: the handler of `POST /api/admin/config`, once authenticated and parsed, accepts the
value `n` exactly when it is 8, 12 or 16.  On acceptance the store holds `n` under
`active_count`, `activeRelayCount` is `n`, and the platform calls are the `putInt`, the
200 response and the restart.  For every other value the store and `activeRelayCount` are
as before and the only platform call is the 400 response. -/
theorem handleAdminConfig_validates (s : Sys) (n : Int) :
    (handleAdminConfig s true (some n)).preferences
        = (if n = 8 ∨ n = 12 ∨ n = 16 then s.preferences.putInt "active_count" n
            else s.preferences)
      ∧ (handleAdminConfig s true (some n)).preferences.getInt "active_count" 16
        = (if n = 8 ∨ n = 12 ∨ n = 16 then n else s.preferences.getInt "active_count" 16)
      ∧ (handleAdminConfig s true (some n)).activeRelayCount
        = (if n = 8 ∨ n = 12 ∨ n = 16 then n else s.activeRelayCount)
      ∧ (handleAdminConfig s true (some n)).log
        = s.log ++ (if n = 8 ∨ n = 12 ∨ n = 16 then
            [Effect.putInt "active_count" n,
              Effect.httpSend 200 "application/json" "\x7b\"success\":true\x7d",
              Effect.restart]
          else
            [Effect.httpSend 400 "application/json"
              "\x7b\"error\":\"Invalid relay count. Must be 8, 12, or 16\"\x7d"]) := by
  by_cases h : n = 8 ∨ n = 12 ∨ n = 16
  · have hv : ¬ (n ≠ 8 ∧ n ≠ 12 ∧ n ≠ 16) := by omega
    have heq : handleAdminConfig s true (some n)
        = { s with
            preferences := s.preferences.putInt "active_count" n
            activeRelayCount := n
            log := s.log ++ [Effect.putInt "active_count" n,
              Effect.httpSend 200 "application/json" "\x7b\"success\":true\x7d",
              Effect.restart] } := by
      simp only [handleAdminConfig]
      rw [if_neg hv]
      rfl
    rw [heq, if_pos h, if_pos h, if_pos h, if_pos h]
    refine ⟨rfl, ?_, rfl, rfl⟩
    simp [Preferences.getInt, Preferences.putInt]
  · have hv : n ≠ 8 ∧ n ≠ 12 ∧ n ≠ 16 := by omega
    have heq : handleAdminConfig s true (some n)
        = s.emit [Effect.httpSend 400 "application/json"
            "\x7b\"error\":\"Invalid relay count. Must be 8, 12, or 16\"\x7d"] := by
      simp only [handleAdminConfig]
      rw [if_pos hv]
      rfl
    rw [heq, if_neg h, if_neg h, if_neg h, if_neg h]
    exact ⟨rfl, rfl, rfl, rfl⟩


/-! ### The poll gate and the reconnect timeout -/

/-- C15, as amended: a call of `checkWiFiConnection` made while `wifiReconnecting` is `true`,
the station is not connected and the clock difference to `reconnectStartTime` exceeds
`RECONNECT_TIMEOUT` enters AP fallback (`wifiReconnecting` becomes `false`, `apModeActive`
becomes `true`, `startAPMode` is called) when the clock difference to `lastWiFiCheck` is at
least `WIFI_CHECK_INTERVAL`; when that difference is smaller, the call returns at the poll
gate and leaves the whole state as it is. -/
theorem timeout_behind_poll_gate (s : Sys) (p : Poll)
    (hr : s.wifiReconnecting = true) (hs : s.staConnected = false)
    (hto : usub (millis p.now) s.reconnectStartTime > RECONNECT_TIMEOUT) :
    (WIFI_CHECK_INTERVAL ≤ usub (millis p.now) s.lastWiFiCheck →
        (checkWiFiConnection s p).wifiReconnecting = false
          ∧ (checkWiFiConnection s p).apModeActive = true
          ∧ softAPCalls (checkWiFiConnection s p).log = softAPCalls s.log + 1)
      ∧ (usub (millis p.now) s.lastWiFiCheck < WIFI_CHECK_INTERVAL →
          checkWiFiConnection s p = s) := by
  constructor
  · intro hgate
    have hg : ¬ usub (millis p.now) s.lastWiFiCheck < WIFI_CHECK_INTERVAL := by omega
    have heq : checkWiFiConnection s p
        = startAPMode { s with lastWiFiCheck := millis p.now, wifiReconnecting := false }
            p.apNow := by
      simp only [checkWiFiConnection, if_neg hg, hs, hr, if_true, if_pos hto,
        Bool.false_eq_true, if_false]
    rw [heq]
    refine ⟨rfl, rfl, ?_⟩
    simp [startAPMode, softAPCalls, isSoftAP, List.countP_append, List.countP_cons]
  · intro hgate
    simp only [checkWiFiConnection, if_pos hgate]

/-- Witness of C15 as amended: after power-on with the station down and polls at 30 s and
60 s, the poll at 90 s passes the gate and enters AP fallback. -/
theorem timeout_behind_poll_gate_witness :
    (pollRun (powerOn emptyStore 0)
        [Poll.mk 30000 30000 0, Poll.mk 60000 60000 0]).wifiReconnecting = true
      ∧ (pollRun (powerOn emptyStore 0)
        [Poll.mk 30000 30000 0, Poll.mk 60000 60000 0]).staConnected = false
      ∧ usub (millis 90000) (pollRun (powerOn emptyStore 0)
        [Poll.mk 30000 30000 0, Poll.mk 60000 60000 0]).reconnectStartTime > RECONNECT_TIMEOUT
      ∧ WIFI_CHECK_INTERVAL ≤ usub (millis 90000) (pollRun (powerOn emptyStore 0)
        [Poll.mk 30000 30000 0, Poll.mk 60000 60000 0]).lastWiFiCheck
      ∧ (checkWiFiConnection (pollRun (powerOn emptyStore 0)
          [Poll.mk 30000 30000 0, Poll.mk 60000 60000 0])
          (Poll.mk 90000 90000 0)).wifiReconnecting = false
      ∧ (checkWiFiConnection (pollRun (powerOn emptyStore 0)
          [Poll.mk 30000 30000 0, Poll.mk 60000 60000 0])
          (Poll.mk 90000 90000 0)).apModeActive = true :=
  ⟨by decide, by decide, by decide, by decide,
    ((timeout_behind_poll_gate (pollRun (powerOn emptyStore 0)
        [Poll.mk 30000 30000 0, Poll.mk 60000 60000 0]) (Poll.mk 90000 90000 0)
        (by decide) (by decide) (by decide)).1 (by decide)).1,
    ((timeout_behind_poll_gate (pollRun (powerOn emptyStore 0)
        [Poll.mk 30000 30000 0, Poll.mk 60000 60000 0]) (Poll.mk 90000 90000 0)
        (by decide) (by decide) (by decide)).1 (by decide)).2.1⟩

/-- Counterexample to C15 as stated: after power-on with the station down, the poll at 30 s
begins the reconnect attempt and the poll at 60 s passes the gate with the attempt exactly
30000 ms old; the call at 60.001 s finds `wifiReconnecting` set, the station down and the
attempt 30001 ms old, yet it returns at the poll gate: `wifiReconnecting` stays `true`,
`apModeActive` stays `false` and `startAPMode` is not called. -/
theorem timeout_check_skipped_by_poll_gate :
    (pollRun (powerOn emptyStore 0)
        [Poll.mk 30000 30000 0, Poll.mk 60000 60000 0]).wifiReconnecting = true
      ∧ (pollRun (powerOn emptyStore 0)
        [Poll.mk 30000 30000 0, Poll.mk 60000 60000 0]).staConnected = false
      ∧ (pollRun (powerOn emptyStore 0)
        [Poll.mk 30000 30000 0, Poll.mk 60000 60000 0]).reconnectStartTime = 30000
      ∧ usub (millis 60001) (pollRun (powerOn emptyStore 0)
        [Poll.mk 30000 30000 0, Poll.mk 60000 60000 0]).reconnectStartTime = 30001
      ∧ (checkWiFiConnection (pollRun (powerOn emptyStore 0)
          [Poll.mk 30000 30000 0, Poll.mk 60000 60000 0])
          (Poll.mk 60001 60001 0)).wifiReconnecting = true
      ∧ (checkWiFiConnection (pollRun (powerOn emptyStore 0)
          [Poll.mk 30000 30000 0, Poll.mk 60000 60000 0])
          (Poll.mk 60001 60001 0)).apModeActive = false
      ∧ softAPCalls (checkWiFiConnection (pollRun (powerOn emptyStore 0)
          [Poll.mk 30000 30000 0, Poll.mk 60000 60000 0])
          (Poll.mk 60001 60001 0)).log = 0 := by
  decide


/-! ### Broker settings read back at boot -/

set_option maxRecDepth 4000

theorem restoreLoop_frame (s : Sys) (n : Nat) :
    (List.range n).foldl restoreRelayStates_step s
      = { s with
          relayControl := ((List.range n).foldl restoreRelayStates_step s).relayControl
          log := ((List.range n).foldl restoreRelayStates_step s).log } := by
  induction n with
  | zero => simp
  | succ n ih =>
    simp only [List.range_succ, List.foldl_append, List.foldl_cons, List.foldl_nil]
    generalize (List.range n).foldl restoreRelayStates_step s = r at ih
    rw [ih]
    simp [restoreRelayStates_step, relayControl_setState]

theorem restoreRelayStates_settings (s : Sys) :
    (restoreRelayStates s).mqtt_server = (restoreSettings s).mqtt_server
      ∧ (restoreRelayStates s).mqtt_port = (restoreSettings s).mqtt_port
      ∧ (restoreRelayStates s).mqtt_user = (restoreSettings s).mqtt_user
      ∧ (restoreRelayStates s).mqtt_password = (restoreSettings s).mqtt_password := by
  unfold restoreRelayStates
  rw [restoreLoop_frame]
  exact ⟨rfl, rfl, rfl, rfl⟩

theorem getString_absent (p : Preferences) (key : String) (d : String)
    (h : p.entries key = none) : p.getString key d = d := by
  simp [Preferences.getString, h]

/-- C14, as amended: after `restoreRelayStates` at boot, over any store, the four broker
settings hold their build-time values (the bytes of `192.168.68.100`, `1883`, `solacemqtt`
and `solacepass`) when the key `mqtt_server` is absent, whatever the other keys hold; and
the port holds its build-time value `1883` when the key `mqtt_port` is absent, whether or
not a server is stored. -/
theorem broker_settings_defaults (prefs : Preferences) (mac : Nat) :
    (prefs.entries "mqtt_server" = none →
        (restoreRelayStates (relayControl_init (powerOn prefs mac))).mqtt_server
            = utf8 "192.168.68.100"
          ∧ (restoreRelayStates (relayControl_init (powerOn prefs mac))).mqtt_port
            = utf8 "1883"
          ∧ (restoreRelayStates (relayControl_init (powerOn prefs mac))).mqtt_user
            = utf8 "solacemqtt"
          ∧ (restoreRelayStates (relayControl_init (powerOn prefs mac))).mqtt_password
            = utf8 "solacepass")
      ∧ (prefs.entries "mqtt_port" = none →
          (restoreRelayStates (relayControl_init (powerOn prefs mac))).mqtt_port
            = utf8 "1883") := by
  obtain ⟨h1, h2, h3, h4⟩ := restoreRelayStates_settings (relayControl_init (powerOn prefs mac))
  rw [h1, h2, h3, h4]
  have hp : (relayControl_init (powerOn prefs mac)).preferences = prefs := rfl
  constructor
  · intro habs
    have hg : prefs.getString "mqtt_server" "" = "" := getString_absent _ _ _ habs
    have hlen : ¬ (prefs.getString "mqtt_server" "").length > 0 := by rw [hg]; decide
    simp only [restoreSettings, hp, if_neg hlen]
    exact ⟨rfl, rfl, rfl, rfl⟩
  · intro habs
    have hg : prefs.getString "mqtt_port" "1883" = "1883" := getString_absent _ _ _ habs
    by_cases hlen : (prefs.getString "mqtt_server" "").length > 0
    · simp only [restoreSettings, hp, if_pos hlen, hg]
      decide
    · simp only [restoreSettings, hp, if_neg hlen]
      rfl

/-- Witness of C14 as amended: a store with a user and a password but no server and no
port; the last four parts give the bytes of the build-time values. -/
theorem broker_settings_defaults_witness :
    storeUserOnly.entries "mqtt_server" = none
      ∧ storeUserOnly.entries "mqtt_port" = none
      ∧ (restoreRelayStates (relayControl_init (powerOn storeUserOnly 0))).mqtt_user
          = utf8 "solacemqtt"
      ∧ (restoreRelayStates (relayControl_init (powerOn storeUserOnly 0))).mqtt_password
          = utf8 "solacepass"
      ∧ (restoreRelayStates (relayControl_init (powerOn storeUserOnly 0))).mqtt_port
          = utf8 "1883"
      ∧ utf8 "192.168.68.100" = [49, 57, 50, 46, 49, 54, 56, 46, 54, 56, 46, 49, 48, 48]
      ∧ utf8 "1883" = [49, 56, 56, 51]
      ∧ utf8 "solacemqtt" = [115, 111, 108, 97, 99, 101, 109, 113, 116, 116]
      ∧ utf8 "solacepass" = [115, 111, 108, 97, 99, 101, 112, 97, 115, 115] :=
  ⟨by decide, by decide,
    ((broker_settings_defaults storeUserOnly 0).1 (by decide)).2.2.1,
    ((broker_settings_defaults storeUserOnly 0).1 (by decide)).2.2.2,
    (broker_settings_defaults storeUserOnly 0).2 (by decide),
    by decide, by decide, by decide, by decide⟩

/-- Counterexample to C14 as stated: on a device with an empty store the admin page sets
the broker with the password field left at the placeholder, so that the key `mqtt_pass`
stays absent and the password in memory stays the build-time one; after the restart
`restoreRelayStates` leaves the password empty.  Likewise, over a store that holds a server
only, the user and the password are empty after `restoreRelayStates`. -/
theorem absent_password_not_defaulted :
    storeAfterAdminMqtt.entries "mqtt_pass" = none
      ∧ (handleAdminMqtt (powerOn emptyStore 0) true
          (some ⟨"10.0.0.5", 1883, "solacemqtt", PASSWORD_PLACEHOLDER⟩)).mqtt_password
          = utf8 "solacepass"
      ∧ (restoreRelayStates (relayControl_init (powerOn storeAfterAdminMqtt 0))).mqtt_password
          = []
      ∧ (emptyStore.putString "mqtt_server" "10.0.0.5").entries "mqtt_user" = none
      ∧ (restoreRelayStates (relayControl_init
          (powerOn (emptyStore.putString "mqtt_server" "10.0.0.5") 0))).mqtt_user = []
      ∧ (restoreRelayStates (relayControl_init
          (powerOn (emptyStore.putString "mqtt_server" "10.0.0.5") 0))).mqtt_password = [] := by
  decide


/-! ### Output lines of the relay bank -/

theorem RELAY_PINS_injective : Function.Injective RELAY_PINS := by
  decide

theorem pinLevel_append (l m : List Effect) (pin : Nat) :
    pinLevel (l ++ m) pin = m.foldl (pinLevel_step pin) (pinLevel l pin) := by
  simp [pinLevel, List.foldl_append]

theorem setState_writes (rc : RelayControl) (i : Fin NUM_RELAYS) (v : Bool) :
    rc.setState (i.val : Int) v
      = (⟨Function.update rc.relayStates i v⟩, [Effect.digitalWrite (RELAY_PINS i) v]) := by
  have h : (0 : Int) ≤ (i.val : Int) ∧ (i.val : Int) < (NUM_RELAYS : Int) := by
    have := i.isLt
    omega
  simp only [RelayControl.setState, dif_pos h]
  simp

theorem pinLevel_other_line (log : List Effect) (i j : Fin NUM_RELAYS) (v : Bool)
    (hne : j ≠ i) :
    pinLevel (log ++ [Effect.digitalWrite (RELAY_PINS i) v]) (RELAY_PINS j)
      = pinLevel log (RELAY_PINS j) := by
  have hp : RELAY_PINS i ≠ RELAY_PINS j := fun h => hne (RELAY_PINS_injective h).symm
  simp [pinLevel_append, pinLevel_step, hp]

theorem LinesFollow.setState (acc : RelayControl × List Effect) (h : LinesFollow acc)
    (relayIndex : Int) (v : Bool) :
    LinesFollow ((acc.1.setState relayIndex v).1, acc.2 ++ (acc.1.setState relayIndex v).2) := by
  by_cases hr : 0 ≤ relayIndex ∧ relayIndex < (NUM_RELAYS : Int)
  · have hlt : relayIndex.toNat < NUM_RELAYS := by omega
    have hcast : ((⟨relayIndex.toNat, hlt⟩ : Fin NUM_RELAYS).val : Int) = relayIndex := by
      simp only []
      omega
    have hw := setState_writes acc.1 ⟨relayIndex.toNat, hlt⟩ v
    rw [hcast] at hw
    rw [hw]
    intro j
    by_cases hj : j = ⟨relayIndex.toNat, hlt⟩
    · subst hj
      simp [pinLevel_append, pinLevel_step]
    · rw [pinLevel_other_line _ _ _ _ hj]
      simp only [Function.update_noteq hj]
      exact h j
  · simp only [RelayControl.setState, dif_neg hr, List.append_nil]
    exact h

theorem LinesFollow.setAll (state : Bool) (n : Nat) (acc : RelayControl × List Effect)
    (h : LinesFollow acc) :
    LinesFollow ((List.range n).foldl (RelayControl.setAll_step state) acc) := by
  induction n with
  | zero => exact h
  | succ n ih =>
    simp only [List.range_succ, List.foldl_append, List.foldl_cons, List.foldl_nil]
    exact LinesFollow.setState _ ih _ _

theorem setAll_log (state : Bool) (n : Nat) (rc : RelayControl) (log : List Effect) :
    (List.range n).foldl (RelayControl.setAll_step state) (rc, log)
      = (((List.range n).foldl (RelayControl.setAll_step state) (rc, [])).1,
          log ++ ((List.range n).foldl (RelayControl.setAll_step state) (rc, [])).2) := by
  induction n with
  | zero => simp
  | succ n ih =>
    simp only [List.range_succ, List.foldl_append, List.foldl_cons, List.foldl_nil]
    rw [ih]
    simp [RelayControl.setAll_step, List.append_assoc]

theorem LinesFollow.call (acc : RelayControl × List Effect) (h : LinesFollow acc)
    (op : RelayOp) : LinesFollow (relayRun_step acc op) := by
  cases op with
  | setState relayIndex state =>
    exact LinesFollow.setState acc h relayIndex state
  | toggleRelay relayIndex =>
    simp only [relayRun_step, RelayControl.call, RelayControl.toggleRelay]
    split
    · exact LinesFollow.setState acc h relayIndex _
    · simpa using h
  | allOn =>
    have := LinesFollow.setAll true NUM_RELAYS acc h
    rw [setAll_log] at this
    exact this
  | allOff =>
    have := LinesFollow.setAll false NUM_RELAYS acc h
    rw [setAll_log] at this
    exact this

theorem LinesFollow.run (ops : List RelayOp) (acc : RelayControl × List Effect)
    (h : LinesFollow acc) : LinesFollow (relayRun acc ops) := by
  induction ops generalizing acc with
  | nil => exact h
  | cons op rest ih => exact ih _ (LinesFollow.call acc h op)

theorem initLoop_lines (l : List (Fin NUM_RELAYS)) (acc : RelayControl × List Effect)
    (i : Fin NUM_RELAYS) :
    (i ∈ l →
        (l.foldl (fun (acc : RelayControl × List Effect) i =>
          ((⟨Function.update acc.1.relayStates i false⟩ : RelayControl),
            acc.2 ++ [Effect.pinModeOutput (RELAY_PINS i),
              Effect.digitalWrite (RELAY_PINS i) false])) acc).1.relayStates i = false
          ∧ pinLevel (l.foldl (fun (acc : RelayControl × List Effect) i =>
              ((⟨Function.update acc.1.relayStates i false⟩ : RelayControl),
                acc.2 ++ [Effect.pinModeOutput (RELAY_PINS i),
                  Effect.digitalWrite (RELAY_PINS i) false])) acc).2 (RELAY_PINS i)
            = some false)
      ∧ (i ∉ l →
        (l.foldl (fun (acc : RelayControl × List Effect) i =>
          ((⟨Function.update acc.1.relayStates i false⟩ : RelayControl),
            acc.2 ++ [Effect.pinModeOutput (RELAY_PINS i),
              Effect.digitalWrite (RELAY_PINS i) false])) acc).1.relayStates i
            = acc.1.relayStates i
          ∧ pinLevel (l.foldl (fun (acc : RelayControl × List Effect) i =>
              ((⟨Function.update acc.1.relayStates i false⟩ : RelayControl),
                acc.2 ++ [Effect.pinModeOutput (RELAY_PINS i),
                  Effect.digitalWrite (RELAY_PINS i) false])) acc).2 (RELAY_PINS i)
            = pinLevel acc.2 (RELAY_PINS i)) := by
  induction l generalizing acc with
  | nil => simp
  | cons a r ih =>
    simp only [List.foldl_cons]
    obtain ⟨hin, hout⟩ := ih (⟨Function.update acc.1.relayStates a false⟩,
      acc.2 ++ [Effect.pinModeOutput (RELAY_PINS a), Effect.digitalWrite (RELAY_PINS a) false])
    constructor
    · intro hmem
      by_cases hr : i ∈ r
      · exact hin hr
      · have hia : i = a := by
          rcases List.mem_cons.mp hmem with h | h
          · exact h
          · exact absurd h hr
        obtain ⟨h1, h2⟩ := hout hr
        subst hia
        rw [h1, h2]
        simp [pinLevel_append, pinLevel_step]
    · intro hnot
      have hia : i ≠ a := fun h => hnot (h ▸ List.mem_cons_self _ _)
      have hr : i ∉ r := fun h => hnot (List.mem_cons_of_mem _ h)
      obtain ⟨h1, h2⟩ := hout hr
      rw [h1, h2]
      have hp : RELAY_PINS a ≠ RELAY_PINS i := fun h => hia (RELAY_PINS_injective h).symm
      simp [pinLevel_append, pinLevel_step, hp, Function.update_noteq hia]

theorem LinesFollow.init (rc : RelayControl) : LinesFollow rc.init := by
  intro i
  have h := (initLoop_lines (List.finRange NUM_RELAYS) (rc, []) i).1 (List.mem_finRange i)
  unfold RelayControl.init
  rw [h.1, h.2]

/-- C16: after `init()`, through every sequence of `setState`, `toggleRelay`, `allOn` and
`allOff` calls with arbitrary arguments, the level last written to the pin of channel `i` is
`HIGH` exactly when `relayStates[i]` is `true`, for every channel `i`; a `setState` on an
index in range issues exactly one output write, to the pin of that channel; the entries of
`RELAY_PINS` are pairwise distinct; and after that write the level last written to the pin
of channel `i` is the one written, while that of any other channel `j` is as it was. -/
theorem channel_state_reflects_last_write (rc0 rc : RelayControl) (ops : List RelayOp)
    (i j : Fin NUM_RELAYS) (v : Bool) (log : List Effect) :
    pinLevel (relayRun rc0.init ops).2 (RELAY_PINS i)
        = some ((relayRun rc0.init ops).1.relayStates i)
      ∧ (rc.setState (i.val : Int) v).2 = [Effect.digitalWrite (RELAY_PINS i) v]
      ∧ Function.Injective RELAY_PINS
      ∧ pinLevel (log ++ (rc.setState (i.val : Int) v).2) (RELAY_PINS j)
          = (if j = i then some v else pinLevel log (RELAY_PINS j)) := by
  refine ⟨LinesFollow.run ops _ (LinesFollow.init rc0) i, ?_, RELAY_PINS_injective, ?_⟩
  · rw [setState_writes]
  · rw [setState_writes]
    by_cases hji : j = i
    · subst hji
      simp [pinLevel_append, pinLevel_step]
    · rw [if_neg hji]
      exact pinLevel_other_line log i j v hji


/-! ### The active count in every reachable state -/

theorem checkWiFiConnection_counts (s : Sys) (p : Poll) :
    (checkWiFiConnection s p).activeRelayCount = s.activeRelayCount
      ∧ (checkWiFiConnection s p).preferences = s.preferences := by
  simp only [checkWiFiConnection, startAPMode]
  split_ifs <;> exact ⟨rfl, rfl⟩

theorem reconnectMQTT_counts (s : Sys) (c : ConnectAttempt) (hk : s.activeRelayCount ≤ 16) :
    ∃ s', reconnectMQTT s c = some s'
      ∧ s'.activeRelayCount = s.activeRelayCount ∧ s'.preferences = s.preferences := by
  have hto : s.activeRelayCount.toNat ≤ 16 := by omega
  by_cases hg : usub (millis c.guardTime) s.lastAttempt < 5000
  · exact ⟨_, reconnectMQTT_limited s c hg, rfl, rfl⟩
  · by_cases hs : s.mqtt_server.length = 0
    · exact ⟨_, reconnectMQTT_no_server s c hg hs, rfl, rfl⟩
    · cases hc : c.connected with
      | false => exact ⟨_, reconnectMQTT_failed s c hg hs hc, rfl, rfl⟩
      | true =>
        cases hd : s.discoveryPublished with
        | true => exact ⟨_, reconnectMQTT_again s c hg hs hc hd, rfl, rfl⟩
        | false => exact ⟨_, reconnectMQTT_first s c hg hs hc hd hto, rfl, rfl⟩

theorem publishState_counts (s : Sys) (i : Int) :
    (publishState s i).activeRelayCount = s.activeRelayCount
      ∧ (publishState s i).preferences = s.preferences := by
  simp only [publishState, Sys.emit]
  split_ifs <;> exact ⟨rfl, rfl⟩

theorem saveRelayStates_counts (s : Sys) :
    (saveRelayStates s).activeRelayCount = s.activeRelayCount
      ∧ (saveRelayStates s).preferences.getInt "active_count" 16
          = s.preferences.getInt "active_count" 16 := by
  constructor
  · unfold saveRelayStates
    rw [saveLoop_frame]
  · unfold Preferences.getInt
    rw [saveRelayStates_entries_other _ _ active_count_ne_relayKey]

theorem command_counts (s : Sys) (i : Int) (v : Bool) (h : CountsValid s) :
    CountsValid (saveRelayStates (publishState (relayControl_setState s i v) i)) := by
  obtain ⟨h1, h2⟩ := saveRelayStates_counts (publishState (relayControl_setState s i v) i)
  obtain ⟨h3, h4⟩ := publishState_counts (relayControl_setState s i v) i
  unfold CountsValid
  rw [h1, h2, h3, h4]
  exact h

theorem mqttCallback_counts (s : Sys) (topic : String) (payload : List Nat)
    (h : CountsValid s) : CountsValid (mqttCallback s topic payload) := by
  simp only [mqttCallback]
  split
  · exact command_counts s _ _ h
  · exact h

theorem mqttClient_loop_counts (s : Sys) (inbound : Option (String × List Nat))
    (h : CountsValid s) : CountsValid (mqttClient_loop s inbound) := by
  simp only [mqttClient_loop]
  split_ifs
  · split
    · exact mqttCallback_counts s _ _ h
    · exact h
  · exact h

theorem CountsValid.le (s : Sys) (h : CountsValid s) : s.activeRelayCount ≤ 16 := by
  rcases h.1 with h | h | h <;> omega

theorem CountsValid.of_eq (s t : Sys) (h : CountsValid s)
    (h1 : t.activeRelayCount = s.activeRelayCount) (h2 : t.preferences = s.preferences) :
    CountsValid t := by
  unfold CountsValid
  rw [h1, h2]
  exact h

theorem loop_counts (s : Sys) (i : LoopInputs) (h : CountsValid s) :
    ∃ s', loop s i = some s' ∧ CountsValid s' := by
  obtain ⟨hc1, hc2⟩ := checkWiFiConnection_counts s i.poll
  have h1 : CountsValid (checkWiFiConnection s i.poll) := CountsValid.of_eq s _ h hc1 hc2
  simp only [loop]
  split_ifs with hsta hm
  · obtain ⟨s2, hs2, ha, hp⟩ := reconnectMQTT_counts (checkWiFiConnection s i.poll) i.attempt
      (CountsValid.le _ h1)
    refine ⟨mqttClient_loop s2 i.inbound, by simp [hs2], ?_⟩
    exact mqttClient_loop_counts _ _ (CountsValid.of_eq _ _ h1 ha hp)
  · exact ⟨_, rfl, mqttClient_loop_counts _ _ h1⟩
  · exact ⟨_, rfl, h1⟩


theorem CountsValid.emit (s : Sys) (effects : List Effect) (h : CountsValid s) :
    CountsValid (s.emit effects) := h

theorem handleApiRelay_counts (s : Sys) (body : Option (Int × Bool)) (h : CountsValid s) :
    CountsValid (handleApiRelay s body) := by
  simp only [handleApiRelay]
  split
  · exact CountsValid.emit _ _ h
  · split_ifs
    · exact CountsValid.emit _ _ (command_counts s _ _ h)
    · exact CountsValid.emit _ _ h

theorem handleAdminConfig_counts (s : Sys) (authenticated : Bool) (body : Option Int)
    (h : CountsValid s) : CountsValid (handleAdminConfig s authenticated body) := by
  simp only [handleAdminConfig]
  split_ifs with ha
  · exact CountsValid.emit _ _ h
  · split
    · exact CountsValid.emit _ _ h
    · rename_i n
      split_ifs with hv
      · exact CountsValid.emit _ _ h
      · have hn : ValidCount n := by
          unfold ValidCount
          omega
        refine ⟨hn, ?_⟩
        simpa [Preferences.getInt, Preferences.putInt] using hn

theorem putString_getInt (p : Preferences) (key value : String) (hk : "active_count" ≠ key) :
    (p.putString key value).getInt "active_count" 16 = p.getInt "active_count" 16 := by
  simp [Preferences.getInt, Preferences.putString, hk]

theorem handleAdminMqtt_counts (s : Sys) (authenticated : Bool) (body : Option MqttSettings)
    (h : CountsValid s) : CountsValid (handleAdminMqtt s authenticated body) := by
  simp only [handleAdminMqtt]
  split_ifs with ha
  · exact CountsValid.emit _ _ h
  · split
    · exact CountsValid.emit _ _ h
    · split_ifs with hv hpw
      · exact CountsValid.emit _ _ h
      · refine ⟨h.1, ?_⟩
        simp only [putString_getInt _ _ _ (by decide : "active_count" ≠ "mqtt_pass"),
          putString_getInt _ _ _ (by decide : "active_count" ≠ "mqtt_user"),
          putString_getInt _ _ _ (by decide : "active_count" ≠ "mqtt_port"),
          putString_getInt _ _ _ (by decide : "active_count" ≠ "mqtt_server")]
        exact h.2
      · refine ⟨h.1, ?_⟩
        simp only [putString_getInt _ _ _ (by decide : "active_count" ≠ "mqtt_user"),
          putString_getInt _ _ _ (by decide : "active_count" ≠ "mqtt_port"),
          putString_getInt _ _ _ (by decide : "active_count" ≠ "mqtt_server")]
        exact h.2

theorem setupWiFi_counts (s : Sys) (r : PortalResult) (h : CountsValid s) :
    CountsValid (setupWiFi s r) := by
  simp only [setupWiFi]
  split_ifs
  · exact CountsValid.emit _ _ h
  · refine ⟨h.1, ?_⟩
    simp only [putString_getInt _ _ _ (by decide : "active_count" ≠ "mqtt_pass"),
      putString_getInt _ _ _ (by decide : "active_count" ≠ "mqtt_user"),
      putString_getInt _ _ _ (by decide : "active_count" ≠ "mqtt_port"),
      putString_getInt _ _ _ (by decide : "active_count" ≠ "mqtt_server")]
    exact h.2
  · exact h

theorem restoreRelayStates_preferences (s : Sys) :
    (restoreRelayStates s).preferences = s.preferences := by
  obtain ⟨h1, _, _, _⟩ := restoreLoop_spec (restoreSettings s) 16 (le_refl _)
  unfold restoreRelayStates
  rw [h1, restoreSettings_preferences]

theorem boot_counts (prefs : Preferences) (mac : Nat)
    (h : ValidCount (prefs.getInt "active_count" 16)) :
    CountsValid (restoreRelayStates (relayControl_init (powerOn prefs mac))) := by
  unfold CountsValid
  rw [restoreRelayStates_activeRelayCount, restoreRelayStates_preferences]
  exact ⟨h, h⟩

theorem setup_counts (prefs : Preferences) (mac : Nat) (b : BootInputs)
    (h : ValidCount (prefs.getInt "active_count" 16)) :
    ∃ s', setup (powerOn prefs mac) b = some s' ∧ CountsValid s' := by
  have h1 := setupWiFi_counts _ b.portal (boot_counts prefs mac h)
  simp only [setup]
  split_ifs
  · exact ⟨_, rfl, h1⟩
  · have h2 : CountsValid (setupMDNS (setupWiFi (restoreRelayStates
        (relayControl_init (powerOn prefs mac))) b.portal)) :=
      CountsValid.of_eq _ _ h1 rfl rfl
    simp only [setupMQTT]
    split_ifs
    · obtain ⟨s2, hs2, ha, hp⟩ := reconnectMQTT_counts _ b.attempt (CountsValid.le _ h2)
      exact ⟨s2, hs2, CountsValid.of_eq _ _ h2 ha hp⟩
    · exact ⟨_, rfl, h2⟩

theorem programStep_counts (s : Sys) (e : Event) (h : CountsValid s) :
    ∃ s', programStep s e = some s' ∧ CountsValid s' := by
  cases e with
  | boot b => exact setup_counts s.preferences s.efuseMac b h.2
  | tick i => exact loop_counts s i h
  | gotIP =>
    refine ⟨_, rfl, ?_⟩
    have : (staGotIP s).activeRelayCount = s.activeRelayCount
        ∧ (staGotIP s).preferences = s.preferences := by
      simp only [staGotIP, onWiFiConnect, Sys.emit]
      split_ifs <;> exact ⟨rfl, rfl⟩
    exact CountsValid.of_eq _ _ h this.1 this.2
  | disconnected => exact ⟨_, rfl, h⟩
  | sessionLost => exact ⟨_, rfl, h⟩
  | apiRelay body => exact ⟨_, rfl, handleApiRelay_counts s body h⟩
  | adminConfig authenticated body =>
    exact ⟨_, rfl, handleAdminConfig_counts s authenticated body h⟩
  | adminMqtt authenticated body =>
    exact ⟨_, rfl, handleAdminMqtt_counts s authenticated body h⟩

theorem programRun_counts (s : Sys) (events : List Event) (h : CountsValid s) :
    ∃ s', programRun s events = some s' ∧ CountsValid s' := by
  induction events generalizing s with
  | nil => exact ⟨s, rfl, h⟩
  | cons e rest ih =>
    obtain ⟨s1, h1, hv1⟩ := programStep_counts s e h
    obtain ⟨s2, h2, hv2⟩ := ih s1 hv1
    exact ⟨s2, by simp [programRun, h1, h2], hv2⟩

theorem publishDiscovery_defined (s : Sys) (hk : s.activeRelayCount ≤ 16) :
    (publishDiscovery s).isSome = true := by
  have hto : s.activeRelayCount.toNat ≤ 16 := by omega
  simp only [publishDiscovery]
  split_ifs
  · rfl
  · rw [publishDiscoveryLoop_eq _ _ hto]
    rfl

/-- C17: starting from an empty store, through every sequence of resets with `setup`,
passes of `loop`, platform events and requests to the handlers that write the store or a
global, no step reads `RELAY_NAMES` out of bounds, and in the state reached
`activeRelayCount` is 8, 12 or 16, as is the count the store yields at the next boot; so
every index `i < activeRelayCount` is below 16 and `RELAY_NAMES[i]` exists, and
`publishDiscovery` reads `RELAY_NAMES` in bounds whether or not the broker session is
connected. -/
theorem activeRelayCount_in_bounds (mac : Nat) (events : List Event) (connected : Bool) :
    ∃ s, programRun (powerOn emptyStore mac) events = some s
      ∧ (s.activeRelayCount = 8 ∨ s.activeRelayCount = 12 ∨ s.activeRelayCount = 16)
      ∧ ValidCount (s.preferences.getInt "active_count" 16)
      ∧ (∀ i : Nat, (i : Int) < s.activeRelayCount →
          i < NUM_RELAYS ∧ (RELAY_NAMES[i]?).isSome = true)
      ∧ (publishDiscovery { s with mqttConnected := connected }).isSome = true := by
  have h0 : CountsValid (powerOn emptyStore mac) := by
    refine ⟨Or.inr (Or.inr rfl), Or.inr (Or.inr ?_)⟩
    simp [powerOn, emptyStore, Preferences.getInt]
  obtain ⟨s, hrun, hv⟩ := programRun_counts _ events h0
  have hle := CountsValid.le s hv
  refine ⟨s, hrun, hv.1, hv.2, ?_, publishDiscovery_defined _ hle⟩
  intro i hi
  have hlt : i < 16 := by omega
  have hnames : ∀ j : Fin 16, (RELAY_NAMES[j.val]?).isSome = true := by decide
  exact ⟨hlt, hnames ⟨i, hlt⟩⟩

end Esp32Relay
